import Mathlib

/-!
# Custom status plugin: HTTP pipeline and status-update workflow

A shallow embedding of `src/server/api.go`.  Go pointers that are mutated in
place (`*model.User`, `http.ResponseWriter`) become values that are passed in
and returned; the plugin API (`p.API`) is a pair of state-passing functions
over an arbitrary store, and every call made to it is appended to a trace.
The status is the imported `model.CustomStatus`; it is decoded and encoded by
`encoding/json`, whose behaviour on that type is modelled here, with the
reader and the writer of timestamps of the `time` package as parameters.
-/

namespace StatusOverlord

/-! ## Data model -/

/-- A Go `error` value, identified by its message. -/
abbrev GoError := String

/-- A `time.Time` value as its JSON form shows it: the civil date and the
clock reading in the value's own zone, and the offset of that zone from UTC
in seconds. -/
structure Time where
  year : Int
  month : Nat
  day : Nat
  hour : Nat
  minute : Nat
  second : Nat
  nanosecond : Nat
  offset : Int
deriving DecidableEq

/-- The zero `time.Time`: January 1, year 1, 00:00:00 UTC. -/
def Time.zero : Time := ⟨1, 1, 1, 0, 0, 0, 0, 0⟩

/-- The two functions of the standard `time` package behind the JSON methods
of `time.Time`: reading an RFC 3339 timestamp (`parseStrictRFC3339`) and
writing one (`appendStrictRFC3339`, which refuses a year outside 0..9999).
Which timestamps the reader accepts beyond strict RFC 3339 differs between
Go versions, so both functions are parameters of the model. -/
structure TimePkg where
  parse : List Char → Option Time
  format : Time → Except GoError (List Char)

/-- The imported `model.CustomStatus` (declared in the Mattermost `model`
package, not in `api.go`): four exported fields, with the JSON names `emoji`,
`text`, `duration` and `expires_at`.  The spec (section 3) describes the
first two. -/
structure CustomStatus where
  Emoji : String
  Text : String
  Duration : String
  ExpiresAt : Time
deriving DecidableEq

/-- The zero value that `var cs model.CustomStatus` declares. -/
def CustomStatus.zero : CustomStatus := ⟨"", "", "", Time.zero⟩

/-- A non-nil Go `map[string]string`: an association list with at most one
entry per key.  A nil map is `none` in `Option StringMap`. -/
abbrev StringMap := List (String × String)

/-- Reading `m[k]` (with the comma-ok form: `none` when the key is absent). -/
def StringMap.get : StringMap → String → Option String
  | [], _ => none
  | (k1, v1) :: rest, k => if k1 = k then some v1 else StringMap.get rest k

/-- The assignment `m[k] = v`: overwrite the entry of `k` or add one. -/
def StringMap.set : StringMap → String → String → StringMap
  | [], k, v => [(k, v)]
  | (k1, v1) :: rest, k, v =>
    if k1 = k then (k, v) :: rest else (k1, v1) :: StringMap.set rest k v

/-- The keys present in a map. -/
def StringMap.keys (m : StringMap) : List String := m.map Prod.fst

/-- Modelled from the spec: `model.User` is declared in the Mattermost `model`
package (not part of the repository).  The spec (section 3) requires the two
string-keyed mappings `props` and `notifyProps`, each of which may be nil;
`Id` stands for the rest of the record, which `api.go` never touches. -/
structure User where
  Id : String
  Props : Option StringMap
  NotifyProps : Option StringMap
deriving DecidableEq

/-- Modelled from the spec: `model.AppError` is declared in the Mattermost
`model` package (not part of the repository); the fields are the arguments
`api.go` passes to `model.NewAppError` and the `StatusCode` it reads back. -/
structure AppError where
  Where : String
  Id : String
  DetailedError : String
  StatusCode : Nat
deriving DecidableEq

/-- The constructor `model.NewAppError(where, id, params, details, status)`;
`api.go` always passes `nil` params. -/
def NewAppError (wher id details : String) (status : Nat) : AppError :=
  ⟨wher, id, details, status⟩

def UserPropsKeyCustomStatus : String := "customStatus"

def StatusOK : Nat := 200
def StatusBadRequest : Nat := 400
def StatusUnauthorized : Nat := 401
def StatusInternalServerError : Nat := 500

/-! ## Collaborators: plugin API and its call trace -/

/-- One argument of the variadic `keyValuePairs ...interface{}` of `LogError`. -/
inductive LogValue where
  | str (s : String)
  | appErr (e : Option AppError)
  | err (e : Option GoError)
deriving DecidableEq

/-- A call made on `p.API`. -/
inductive Call where
  | GetUser (userID : String)
  | UpdateUser (user : User)
  | LogError (msg : String) (keyValuePairs : List LogValue)
deriving DecidableEq

/-- The user-storage part of `plugin.API`, over an arbitrary store `σ`: each
call returns either a record or an error, together with the next store. -/
structure API (σ : Type) where
  GetUser : String → σ → Except AppError User × σ
  UpdateUser : User → σ → Except AppError User × σ

/-- The receiver `p *Plugin` with what it imports: the API it calls, the text
`AppError.Error()` renders (that method lives in the `model` package), and
the `time` package used when a status is decoded and encoded. -/
structure Plugin (σ : Type) where
  API : API σ
  errorText : AppError → String
  time : TimePkg

/-- What a request can affect outside its response: the collaborator's store
and the calls made so far, oldest first. -/
structure World (σ : Type) where
  store : σ
  trace : List Call

def World.init {σ : Type} (s0 : σ) : World σ := ⟨s0, []⟩

def Plugin.GetUser {σ : Type} (p : Plugin σ) (userID : String) (s : World σ) :
    Except AppError User × World σ :=
  let r := p.API.GetUser userID s.store
  (r.1, ⟨r.2, s.trace ++ [Call.GetUser userID]⟩)

def Plugin.UpdateUser {σ : Type} (p : Plugin σ) (user : User) (s : World σ) :
    Except AppError User × World σ :=
  let r := p.API.UpdateUser user s.store
  (r.1, ⟨r.2, s.trace ++ [Call.UpdateUser user]⟩)

def Plugin.LogError {σ : Type} (_p : Plugin σ) (msg : String) (kv : List LogValue)
    (s : World σ) : World σ :=
  ⟨s.store, s.trace ++ [Call.LogError msg kv]⟩

/-- Number of `GetUser` calls in a trace. -/
def countGetUser (t : List Call) : Nat :=
  (t.filter fun c => match c with | Call.GetUser _ => true | _ => false).length

/-- Number of `UpdateUser` calls in a trace. -/
def countUpdateUser (t : List Call) : Nat :=
  (t.filter fun c => match c with | Call.UpdateUser _ => true | _ => false).length

/-- The `LogError` entries of a trace, oldest first. -/
def logEntries (t : List Call) : List (String × List LogValue) :=
  t.filterMap fun c => match c with | Call.LogError m kv => some (m, kv) | _ => none

/-! ## JSON: the parts of Go's `encoding/json` that `api.go` calls

`api.go` decodes the request body with `json.NewDecoder(r.Body).Decode(&cs)`
and encodes the status with `json.Marshal(cs)`.  Both are standard-library
functions; what follows is their behaviour on a value of type `CustomStatus`,
over bodies that are Unicode text. -/

/-- A parsed JSON value.  Numbers keep their literal text; each member of an
object is its key, its value and the raw text of that value. -/
inductive Value where
  | null
  | boolean (b : Bool)
  | number (text : List Char)
  | string (text : List Char)
  | array (items : List Value)
  | object (fields : List (List Char × Value × List Char))

/-- The scanner's `isSpace`. -/
def isSpace (c : Char) : Bool :=
  c = ' ' || c = '\t' || c = '\r' || c = '\n'

def skipSpace : List Char → List Char
  | [] => []
  | c :: rest => if isSpace c then skipSpace rest else c :: rest

def isDigit (c : Char) : Bool := '0'.toNat ≤ c.toNat && c.toNat ≤ '9'.toNat

/-- Value of one hexadecimal digit, either case. -/
def hexVal (c : Char) : Option Nat :=
  if '0'.toNat ≤ c.toNat ∧ c.toNat ≤ '9'.toNat then some (c.toNat - '0'.toNat)
  else if 'a'.toNat ≤ c.toNat ∧ c.toNat ≤ 'f'.toNat then some (c.toNat - 'a'.toNat + 10)
  else if 'A'.toNat ≤ c.toNat ∧ c.toNat ≤ 'F'.toNat then some (c.toNat - 'A'.toNat + 10)
  else none

/-- The four hex digits of a `\uXXXX` escape (`getu4`). -/
def getu4 (a b c d : Char) : Option Nat :=
  match hexVal a, hexVal b, hexVal c, hexVal d with
  | some x, some y, some z, some w => some (((x * 16 + y) * 16 + z) * 16 + w)
  | _, _, _, _ => none

/-- The test `utf16.IsSurrogate`. -/
def isSurrogate (r : Nat) : Bool := 0xd800 ≤ r && r < 0xe000

/-- The Unicode replacement character U+FFFD. -/
def replacementChar : Char := Char.ofNat 0xfffd

/-- The function `utf16.DecodeRune`: the code point of a valid surrogate pair. -/
def decodeSurrogates (r1 r2 : Nat) : Option Char :=
  if 0xd800 ≤ r1 ∧ r1 < 0xdc00 ∧ 0xdc00 ≤ r2 ∧ r2 < 0xe000 then
    some (Char.ofNat ((r1 - 0xd800) * 1024 + (r2 - 0xdc00) + 0x10000))
  else none

/-- The character a two-character escape stands for. -/
def simpleEscape (e : Char) : Option Char :=
  if e = '"' then some '"'
  else if e = '\\' then some '\\'
  else if e = '/' then some '/'
  else if e = 'b' then some (Char.ofNat 8)
  else if e = 'f' then some (Char.ofNat 12)
  else if e = 'n' then some '\n'
  else if e = 'r' then some '\r'
  else if e = 't' then some '\t'
  else none

def consResult (c : Char) : Option (List Char × List Char) → Option (List Char × List Char)
  | some (s, rest) => some (c :: s, rest)
  | none => none

/-- Emit U+FFFD for a pending unpaired surrogate escape, if there is one. -/
def flush (pend : Option Nat) (r : Option (List Char × List Char)) :
    Option (List Char × List Char) :=
  match pend with
  | none => r
  | some _ => consResult replacementChar r

/-- A string literal after its opening quote: the decoded text and what
follows the closing quote.  `pend` holds a surrogate `\u` escape that waits
for its other half; when the next item is not the matching half it decodes to
U+FFFD, as in `unquote`.  A raw control character is an error. -/
def parseStr : Option Nat → List Char → Option (List Char × List Char)
  | _, [] => none
  | pend, c :: rest =>
    if c = '"' then flush pend (some ([], rest))
    else if c = '\\' then
      match rest with
      | [] => none
      | e :: rest1 =>
        if e = 'u' then
          match rest1 with
          | a :: b :: c2 :: d :: rest2 =>
            match getu4 a b c2 d with
            | none => none
            | some rr =>
              match pend.bind (fun hi => decodeSurrogates hi rr) with
              | some ch => consResult ch (parseStr none rest2)
              | none =>
                if isSurrogate rr then flush pend (parseStr (some rr) rest2)
                else flush pend (consResult (Char.ofNat rr) (parseStr none rest2))
          | _ => none
        else
          match simpleEscape e with
          | some ch => flush pend (consResult ch (parseStr none rest1))
          | none => none
    else if c.toNat < 0x20 then none
    else flush pend (consResult c (parseStr none rest))

/-- A string literal after its opening quote. -/
def parseStringBody (cs : List Char) : Option (List Char × List Char) :=
  parseStr none cs

/-- The longest run of decimal digits at the front, and the rest. -/
def takeDigits : List Char → List Char × List Char
  | [] => ([], [])
  | c :: rest =>
    if isDigit c then ((c :: (takeDigits rest).1), (takeDigits rest).2) else ([], c :: rest)

/-- Integer part of a number: `0`, or a non-zero digit followed by digits. -/
def parseInt : List Char → Option (List Char × List Char)
  | [] => none
  | c :: rest =>
    if c = '0' then some ([c], rest)
    else if isDigit c then some (c :: (takeDigits rest).1, (takeDigits rest).2)
    else none

/-- Optional fraction: a dot followed by at least one digit. -/
def parseFrac : List Char → Option (List Char × List Char)
  | [] => some ([], [])
  | c :: rest =>
    if c = '.' then
      match takeDigits rest with
      | ([], _) => none
      | (ds, r) => some (c :: ds, r)
    else some ([], c :: rest)

/-- Optional exponent: `e` or `E`, an optional sign, at least one digit. -/
def parseExp : List Char → Option (List Char × List Char)
  | [] => some ([], [])
  | c :: rest =>
    if c = 'e' ∨ c = 'E' then
      match rest with
      | [] => none
      | s :: rest1 =>
        if s = '+' ∨ s = '-' then
          match takeDigits rest1 with
          | ([], _) => none
          | (ds, r) => some (c :: s :: ds, r)
        else
          match takeDigits (s :: rest1) with
          | ([], _) => none
          | (ds, r) => some (c :: ds, r)
    else some ([], c :: rest)

/-- A number literal after its optional minus sign. -/
def parseUnsigned (cs : List Char) : Option (List Char × List Char) :=
  match parseInt cs with
  | none => none
  | some (i, r1) =>
    match parseFrac r1 with
    | none => none
    | some (f, r2) =>
      match parseExp r2 with
      | none => none
      | some (e, r3) => some (i ++ f ++ e, r3)

/-- A number literal: its text and what follows it. -/
def parseNumber : List Char → Option (List Char × List Char)
  | [] => none
  | c :: rest =>
    if c = '-' then
      match parseUnsigned rest with
      | some (n, r) => some (c :: n, r)
      | none => none
    else parseUnsigned (c :: rest)

/-- The part of `input` that was read when `rest` is what is left of it. -/
def rawText (input rest : List Char) : List Char :=
  input.take (input.length - rest.length)

/-- The scanner's `maxNestingDepth`. -/
def maxNestingDepth : Nat := 10000

/-- If `cs` starts with `lit`, what follows it. -/
def stripLiteral : List Char → List Char → Option (List Char)
  | [], cs => some cs
  | _ :: _, [] => none
  | l :: lit, c :: cs => if l = c then stripLiteral lit cs else none

mutual

/-- One JSON value at the front of the input (no leading space), and what
follows it.  `depth` counts the enclosing arrays and objects; the first
argument bounds the number of nested calls and is never the limiting factor
when it exceeds twice the length of the input. -/
def parseValue : Nat → Nat → List Char → Option (Value × List Char)
  | 0, _, _ => none
  | _ + 1, _, [] => none
  | fuel + 1, depth, c :: rest =>
    if c = '\x7b' then
      if depth < maxNestingDepth then
        match skipSpace rest with
        | [] => none
        | c1 :: rest1 =>
          if c1 = '\x7d' then some (Value.object [], rest1)
          else
            match parseMembers fuel (depth + 1) (c1 :: rest1) with
            | some (ms, r) => some (Value.object ms, r)
            | none => none
      else none
    else if c = '[' then
      if depth < maxNestingDepth then
        match skipSpace rest with
        | [] => none
        | c1 :: rest1 =>
          if c1 = ']' then some (Value.array [], rest1)
          else
            match parseElements fuel (depth + 1) (c1 :: rest1) with
            | some (es, r) => some (Value.array es, r)
            | none => none
      else none
    else if c = '"' then
      match parseStringBody rest with
      | some (s, r) => some (Value.string s, r)
      | none => none
    else if c = 't' then
      match stripLiteral ['r', 'u', 'e'] rest with
      | some r => some (Value.boolean true, r)
      | none => none
    else if c = 'f' then
      match stripLiteral ['a', 'l', 's', 'e'] rest with
      | some r => some (Value.boolean false, r)
      | none => none
    else if c = 'n' then
      match stripLiteral ['u', 'l', 'l'] rest with
      | some r => some (Value.null, r)
      | none => none
    else
      match parseNumber (c :: rest) with
      | some (n, r) => some (Value.number n, r)
      | none => none

/-- The members of an object from its first key (no leading space) up to
and including the closing brace. -/
def parseMembers : Nat → Nat → List Char →
    Option (List (List Char × Value × List Char) × List Char)
  | 0, _, _ => none
  | _ + 1, _, [] => none
  | fuel + 1, depth, c :: rest =>
    if c = '"' then
      match parseStringBody rest with
      | none => none
      | some (k, r1) =>
        match skipSpace r1 with
        | [] => none
        | c2 :: r2 =>
          if c2 = ':' then
            match parseValue fuel depth (skipSpace r2) with
            | none => none
            | some (v, r3) =>
              match skipSpace r3 with
              | [] => none
              | c3 :: r4 =>
                if c3 = ',' then
                  match parseMembers fuel depth (skipSpace r4) with
                  | some (ms, r) => some ((k, v, rawText (skipSpace r2) r3) :: ms, r)
                  | none => none
                else if c3 = '\x7d' then some ([(k, v, rawText (skipSpace r2) r3)], r4)
                else none
          else none
    else none

/-- The elements of an array from its first element (no leading space) up to
and including the closing bracket. -/
def parseElements : Nat → Nat → List Char → Option (List Value × List Char)
  | 0, _, _ => none
  | fuel + 1, depth, cs =>
    match parseValue fuel depth cs with
    | none => none
    | some (v, r1) =>
      match skipSpace r1 with
      | [] => none
      | c2 :: r2 =>
        if c2 = ',' then
          match parseElements fuel depth (skipSpace r2) with
          | some (es, r) => some (v :: es, r)
          | none => none
        else if c2 = ']' then some ([v], r2)
        else none

end

/-- The first JSON value of a body: leading space is skipped, the value is
read, and whatever follows it is left unread, as `Decoder.Decode` does. -/
def firstValue (body : List Char) : Option (Value × List Char) :=
  parseValue (2 * body.length + 2) 0 (skipSpace body)

/-- The simple case folding `foldName` applies to one character of a key:
ASCII letters go to upper case, and the two non-ASCII characters whose fold
orbit contains an ASCII letter (U+017F, U+212A) go to that letter. -/
def foldRune (c : Char) : Char :=
  if 'a'.toNat ≤ c.toNat ∧ c.toNat ≤ 'z'.toNat then Char.ofNat (c.toNat - 32)
  else if c.toNat = 0x17f then 'S'
  else if c.toNat = 0x212a then 'K'
  else c

/-- Whether an object key selects the struct field with JSON name `field`:
an exact match or a case-insensitive one. -/
def keyMatches (field key : List Char) : Bool :=
  key = field || key.map foldRune = field.map foldRune

/-- Why `Decode` failed. -/
inductive JSONError where
  | EOF
  | Syntax
  | UnmarshalType
deriving DecidableEq

/-- Storing one JSON value into a string field: a string is stored, `null`
leaves the field alone, anything else is a type error (`none`). -/
def storeString (old : String) : Value → Option String
  | Value.string s => some (String.mk s)
  | Value.null => some old
  | _ => none

/-- The method `(*Time).UnmarshalJSON` on the raw text of a JSON value: `null`
leaves the time as it is; anything that is not enclosed in double quotes is
an error; the text between the quotes is read as a timestamp. -/
def Time.UnmarshalJSON (tp : TimePkg) (raw : List Char) (t : Time) : Option Time :=
  if raw = ['n', 'u', 'l', 'l'] then some t
  else
    match raw with
    | [] => none
    | c :: rest =>
      if c = '"' ∧ rest.getLast? = some '"' then tp.parse rest.dropLast else none

/-- Decoding the members of an object into the struct, in order: a later
duplicate key overwrites an earlier one, unknown keys are skipped, and an
error (a value of the wrong type for a string field, a failure of
`UnmarshalJSON` for the time field) is remembered in the flag; `Decode`
reports a flagged result as an error whatever else was decoded. -/
def unmarshalMembers (tp : TimePkg) :
    List (List Char × Value × List Char) → CustomStatus × Bool → CustomStatus × Bool
  | [], acc => acc
  | (k, v, raw) :: ms, (cs, bad) =>
    if keyMatches "emoji".data k then
      match storeString cs.Emoji v with
      | some s => unmarshalMembers tp ms ({ cs with Emoji := s }, bad)
      | none => unmarshalMembers tp ms (cs, true)
    else if keyMatches "text".data k then
      match storeString cs.Text v with
      | some s => unmarshalMembers tp ms ({ cs with Text := s }, bad)
      | none => unmarshalMembers tp ms (cs, true)
    else if keyMatches "duration".data k then
      match storeString cs.Duration v with
      | some s => unmarshalMembers tp ms ({ cs with Duration := s }, bad)
      | none => unmarshalMembers tp ms (cs, true)
    else if keyMatches "expires_at".data k then
      match Time.UnmarshalJSON tp raw cs.ExpiresAt with
      | some t => unmarshalMembers tp ms ({ cs with ExpiresAt := t }, bad)
      | none => unmarshalMembers tp ms (cs, true)
    else unmarshalMembers tp ms (cs, bad)

/-- The function `Unmarshal` into a `CustomStatus` that starts as `cs`. -/
def unmarshal (tp : TimePkg) (cs : CustomStatus) : Value → Except JSONError CustomStatus
  | Value.null => Except.ok cs
  | Value.object ms =>
    if (unmarshalMembers tp ms (cs, false)).2 then Except.error JSONError.UnmarshalType
    else Except.ok (unmarshalMembers tp ms (cs, false)).1
  | _ => Except.error JSONError.UnmarshalType

/-- The call `json.NewDecoder(r.Body).Decode(&cs)` on a zero-valued `cs`. -/
def Decode (tp : TimePkg) (body : String) : Except JSONError CustomStatus :=
  match skipSpace body.data with
  | [] => Except.error JSONError.EOF
  | _ :: _ =>
    match firstValue body.data with
    | none => Except.error JSONError.Syntax
    | some (v, _) => unmarshal tp CustomStatus.zero v

/-- The table `const hex = "0123456789abcdef"` of the encoder. -/
def hex : List Char := "0123456789abcdef".data

/-- The lookup `hex[n]`, for `n` below 16. -/
def hexDigit (n : Nat) : Char := hex.getD n '0'

/-- How `Marshal` writes one character of a string (HTML escaping on, as
`json.Marshal` has it). -/
def escapeChar (c : Char) : List Char :=
  if c = '"' then ['\\', '"']
  else if c = '\\' then ['\\', '\\']
  else if c.toNat = 8 then ['\\', 'b']
  else if c.toNat = 12 then ['\\', 'f']
  else if c = '\n' then ['\\', 'n']
  else if c = '\r' then ['\\', 'r']
  else if c = '\t' then ['\\', 't']
  else if c.toNat < 0x20 ∨ c = '<' ∨ c = '>' ∨ c = '&' then
    ['\\', 'u', '0', '0', hexDigit (c.toNat / 16), hexDigit (c.toNat % 16)]
  else if c.toNat = 0x2028 ∨ c.toNat = 0x2029 then
    ['\\', 'u', '2', '0', '2', hexDigit (c.toNat % 16)]
  else [c]

/-- The body of a string literal, between its quotes. -/
def escapeString : List Char → List Char
  | [] => []
  | c :: rest => escapeChar c ++ escapeString rest

/-- A JSON string literal. -/
def quote (s : String) : List Char :=
  '"' :: (escapeString s.data ++ ['"'])

/-- How `json.Marshal` copies one character of the text a `MarshalJSON`
method returned: the HTML characters and U+2028, U+2029 are escaped. -/
def compactChar (c : Char) : List Char :=
  if c = '<' ∨ c = '>' ∨ c = '&' then
    ['\\', 'u', '0', '0', hexDigit (c.toNat / 16), hexDigit (c.toNat % 16)]
  else if c.toNat = 0x2028 ∨ c.toNat = 0x2029 then
    ['\\', 'u', '2', '0', '2', hexDigit (c.toNat % 16)]
  else [c]

def compactString : List Char → List Char
  | [] => []
  | c :: rest => compactChar c ++ compactString rest

/-- Encoding the `time.Time` field: `MarshalJSON` writes the timestamp
between double quotes, or fails when the timestamp cannot be written;
`json.Marshal` then checks that what it got is one JSON string and copies it
with `compactString`. -/
def marshalTime (tp : TimePkg) (t : Time) : Except GoError (List Char) :=
  match tp.format t with
  | Except.error e =>
    Except.error ("json: error calling MarshalJSON for type time.Time: Time.MarshalJSON: " ++ e)
  | Except.ok ts =>
    match parseStringBody (ts ++ ['"']) with
    | some (_, []) => Except.ok ('"' :: (compactString ts ++ ['"']))
    | _ => Except.error "json: error calling MarshalJSON for type time.Time"

/-- The text of the encoded struct once its time field is encoded as `tx`:
the four fields in declaration order under their JSON names. -/
def statusText (cs : CustomStatus) (tx : List Char) : String :=
  String.mk ("\x7b\"emoji\":".data ++ quote cs.Emoji ++ ",\"text\":".data ++ quote cs.Text
    ++ ",\"duration\":".data ++ quote cs.Duration ++ ",\"expires_at\":".data ++ tx
    ++ ['\x7d'])

/-- The call `json.Marshal(cs)`: it fails exactly when the time field cannot
be encoded. -/
def Marshal (tp : TimePkg) (cs : CustomStatus) : Except GoError String :=
  match marshalTime tp cs.ExpiresAt with
  | Except.error e => Except.error e
  | Except.ok tx => Except.ok (statusText cs tx)

/-! ## HTTP: request, response writer -/

/-- What `api.go` reads of an `*http.Request`: method and path (for the
router), the parsed query string `r.URL.Query()` in order, and the body. -/
structure Request where
  Method : String
  Path : String
  Query : List (String × String)
  Body : String

/-- The method `url.Values.Get`: the first value of the key, or the empty string. -/
def queryGet : List (String × String) → String → String
  | [], _ => ""
  | (k, v) :: rest, key => if k = key then v else queryGet rest key

/-- An `http.ResponseWriter` that records what is written to it.  `status` is
`none` until the header is written; `writeErr` is the error its `Write`
returns, if the transport fails.  A failed `Write` leaves the record as it
was. -/
structure ResponseWriter where
  status : Option Nat
  body : String
  writeErr : Option GoError
deriving DecidableEq

/-- The writer a request starts with. -/
def ResponseWriter.fresh (writeErr : Option GoError) : ResponseWriter :=
  ⟨none, "", writeErr⟩

/-- The method `w.WriteHeader(code)`: only the first call sets the status. -/
def ResponseWriter.WriteHeader (w : ResponseWriter) (code : Nat) : ResponseWriter :=
  match w.status with
  | some _ => w
  | none => { w with status := some code }

/-- The method `w.Write(b)`: an implicit `WriteHeader(200)`, then the bytes. -/
def ResponseWriter.Write (w : ResponseWriter) (b : String) :
    ResponseWriter × Option GoError :=
  match w.writeErr with
  | some e => (w, some e)
  | none => ({ w.WriteHeader StatusOK with body := w.body ++ b }, none)

/-- The function `http.Error(w, msg, code)`: the status, then the message
and a newline; a failure of that last write is dropped. -/
def httpError (w : ResponseWriter) (msg : String) (code : Nat) : ResponseWriter :=
  ((w.WriteHeader code).Write (msg ++ "\n")).1

/-- An HTTP handler: it writes to the response and acts on the world. -/
abbrev Handler (σ : Type) := ResponseWriter → Request → World σ → ResponseWriter × World σ

/-! ## The plugin: `api.go` -/

def makeNonNil (user : User) : User :=
  let user1 : User :=
    match user.Props with
    | none => { user with Props := some [] }
    | some _ => user
  match user1.NotifyProps with
  | none => { user1 with NotifyProps := some [] }
  | some _ => user1

/-- The user is updated in place in Go; here the updated record is returned
next to the error.  After `makeNonNil` the map written to is never nil. -/
def setCustomStatus (tp : TimePkg) (user : User) (cs : CustomStatus) :
    User × Option GoError :=
  let user1 := makeNonNil user
  match Marshal tp cs with
  | Except.error jsonErr => (user1, some jsonErr)
  | Except.ok statusJSON =>
    ({ user1 with
        Props := some ((user1.Props.getD []).set UserPropsKeyCustomStatus statusJSON) },
      none)

/-- The error variable `err` that `user, err := p.API.GetUser(userID)` binds. -/
def errOf : Except AppError User → Option AppError
  | Except.error e => some e
  | Except.ok _ => none

/-- The worker returns the `*model.AppError` (`none` for nil) and the world
after its calls.  `cs` is a pointer in Go and may be nil.  The `err` of the
`if err := setCustomStatus(...)` statement is local to that statement, so the
`err` logged after `UpdateUser` is the one bound by `GetUser`. -/
def SetCustomStatusWorker {σ : Type} (p : Plugin σ) (userID : String)
    (cs : Option CustomStatus) (s : World σ) : Option AppError × World σ :=
  match cs with
  | none =>
    (some (NewAppError "SetCustomStatus"
      "api.custom_status.set_custom_statuses.update.app_error" "" StatusBadRequest), s)
  | some c =>
    if c.Emoji = "" ∧ c.Text = "" then
      (some (NewAppError "SetCustomStatus"
        "api.custom_status.set_custom_statuses.update.app_error" "" StatusBadRequest), s)
    else
      let got := p.GetUser userID s
      let err : Option AppError := errOf got.1
      match got.1 with
      | Except.error _ =>
        (some (NewAppError "SetCustomStatus"
          "api.custom_status.set_custom_statuses.user_not_found" ""
          StatusInternalServerError), got.2)
      | Except.ok user =>
        match setCustomStatus p.time user c with
        | (_, some jsonErr) =>
          (some (NewAppError "SetCustomStatus"
            "api.custom_status.set_custom_statuses.set_failed" ""
            StatusInternalServerError),
           p.LogError "Failed to set custom status"
             [LogValue.str "userID", LogValue.str userID, LogValue.str "error",
              LogValue.err (some jsonErr)] got.2)
        | (user1, none) =>
          match p.UpdateUser user1 got.2 with
          | (Except.error _, s2) =>
            (some (NewAppError "SetCustomStatus"
              "api.custom_status.set_custom_statuses.update_failed" ""
              StatusInternalServerError),
             p.LogError "Failed to update user"
               [LogValue.str "userID", LogValue.str userID, LogValue.str "error",
                LogValue.appErr err] s2)
          | (Except.ok _, s2) => (none, s2)

def HelloWorld {σ : Type} (p : Plugin σ) : Handler σ := fun w _r s =>
  match w.Write "Hello, world!" with
  | (w1, none) => (w1, s)
  | (w1, some err) =>
    (httpError w1 err StatusInternalServerError,
     p.LogError "Failed to write response" [LogValue.str "error", LogValue.err (some err)] s)

def CustomStatusChange {σ : Type} (p : Plugin σ) : Handler σ := fun w r s =>
  match Decode p.time r.Body with
  | Except.error _ => (httpError w "Invalid request body" StatusBadRequest, s)
  | Except.ok cs =>
    if queryGet r.Query "Mattermost-User-ID" = "" then
      (httpError w "Not authorized" StatusUnauthorized, s)
    else
      match SetCustomStatusWorker p (queryGet r.Query "Mattermost-User-ID") (some cs) s with
      | (some appErr, s1) => (httpError w (p.errorText appErr) appErr.StatusCode, s1)
      | (none, s1) => (w.WriteHeader StatusOK, s1)

def MattermostAuthorizationRequired {σ : Type} (_p : Plugin σ) (next : Handler σ) :
    Handler σ := fun w r s =>
  if queryGet r.Query "Mattermost-User-ID" = "" then
    (httpError w "Not authorized" StatusUnauthorized, s)
  else next w r s

/-- The two routes of the router, under the `/api/v1` prefix. -/
inductive Route where
  | hello
  | customStatusChange
deriving DecidableEq

def Route.path : Route → String
  | Route.hello => "/api/v1/hello"
  | Route.customStatusChange => "/api/v1/custom-status-change"

def Route.method : Route → String
  | Route.hello => "GET"
  | Route.customStatusChange => "PUT"

/-- The router of `ServeHTTP`: a request whose path and method are those of a
route goes to that route's handler wrapped in the middleware (the router
builds the middleware chain only for a matched route).  For any other request
the router itself answers (405 when only the method differs, else 404);
those answers are outside the plugin's code. -/
def ServeHTTP {σ : Type} (p : Plugin σ) : Handler σ := fun w r s =>
  if r.Path = Route.hello.path then
    if r.Method = Route.hello.method then
      MattermostAuthorizationRequired p (HelloWorld p) w r s
    else (w.WriteHeader 405, s)
  else if r.Path = Route.customStatusChange.path then
    if r.Method = Route.customStatusChange.method then
      MattermostAuthorizationRequired p (CustomStatusChange p) w r s
    else (w.WriteHeader 405, s)
  else (httpError w "404 page not found" 404, s)

/-- A request on a route: the method and path of that route. -/
def Route.request (rt : Route) (query : List (String × String)) (body : String) : Request :=
  ⟨rt.method, rt.path, query, body⟩

/-! ## RFC 3339 timestamps

The reader and the writer of timestamps of the `time` package
(`parseStrictRFC3339`, `appendStrictRFC3339`); they make up the time package
of the concrete examples below. -/

/-- The function `appendInt`: decimal digits, zero-padded to `width`. -/
def appendInt (x width : Nat) : List Char :=
  List.replicate (width - (Nat.toDigits 10 x).length) '0' ++ Nat.toDigits 10 x

/-- Without its trailing zeros. -/
def trimZeros (ds : List Char) : List Char :=
  (ds.reverse.dropWhile fun c => c = '0').reverse

/-- The function `appendNano` for the layout `.999999999`: nothing for a whole
second, else the fraction without trailing zeros. -/
def appendNano (nsec : Nat) : List Char :=
  if nsec = 0 then [] else '.' :: trimZeros (appendInt nsec 9)

/-- The zone as RFC 3339 writes it: `Z` for UTC, else sign, hours, minutes. -/
def appendZone (offset : Int) : List Char :=
  if offset = 0 then ['Z']
  else
    (if offset < 0 ∧ offset.natAbs / 60 ≠ 0 then '-' else '+') ::
      (appendInt (offset.natAbs / 60 / 60) 2 ++ ':' :: appendInt (offset.natAbs / 60 % 60) 2)

/-- The function `appendStrictRFC3339`: the timestamp with sub-second
precision, or an error when it is not a valid RFC 3339 timestamp. -/
def formatRFC3339 (t : Time) : Except GoError (List Char) :=
  if t.year < 0 ∨ 9999 < t.year then Except.error "year outside of range [0,9999]"
  else if t.offset ≠ 0 ∧ 24 ≤ t.offset.natAbs / 60 / 60 then
    Except.error "timezone hour outside of range [0,23]"
  else
    Except.ok (appendInt t.year.toNat 4 ++ '-' :: appendInt t.month 2 ++ '-' ::
      appendInt t.day 2 ++ 'T' :: appendInt t.hour 2 ++ ':' :: appendInt t.minute 2 ++ ':' ::
      appendInt t.second 2 ++ appendNano t.nanosecond ++ appendZone t.offset)

/-- The value of a run of decimal digits. -/
def digitsValue : List Char → Nat → Option Nat
  | [], acc => some acc
  | c :: rest, acc =>
    if isDigit c then digitsValue rest (acc * 10 + (c.toNat - '0'.toNat)) else none

/-- The local `parseUint` of `parseRFC3339`: decimal digits with a value
between `lo` and `hi`. -/
def parseUint (ds : List Char) (lo hi : Nat) : Option Nat :=
  match digitsValue ds 0 with
  | some x => if lo ≤ x ∧ x ≤ hi then some x else none
  | none => none

/-- The function `daysIn`. -/
def daysIn (month year : Nat) : Nat :=
  if month = 2 then
    (if year % 4 = 0 ∧ (year % 100 ≠ 0 ∨ year % 400 = 0) then 29 else 28)
  else if month = 4 ∨ month = 6 ∨ month = 9 ∨ month = 11 then 30
  else 31

/-- The fraction of a second: a dot followed by at least one digit; digits
after the ninth are dropped.  Returns the nanoseconds and what follows. -/
def parseFraction : List Char → Option (Nat × List Char)
  | '.' :: c :: rest =>
    if isDigit c then
      match digitsValue ((c :: (takeDigits rest).1).take 9) 0 with
      | some x =>
        some (x * 10 ^ (9 - ((c :: (takeDigits rest).1).take 9).length), (takeDigits rest).2)
      | none => none
    else none
  | _ => none

/-- The zone of a timestamp: `Z`, or a sign with two-digit hours (0..23) and
minutes (0..59).  Returns the offset in seconds. -/
def parseZone : List Char → Option Int
  | [z] => if z = 'Z' then some 0 else none
  | [sg, h1, h2, c, m1, m2] =>
    match parseUint [h1, h2] 0 23, parseUint [m1, m2] 0 59 with
    | some hr, some mm =>
      if c = ':' then
        if sg = '+' then some (((hr * 60 + mm) * 60 : Nat) : Int)
        else if sg = '-' then some (-(((hr * 60 + mm) * 60 : Nat) : Int))
        else none
      else none
    | _, _ => none
  | _ => none

/-- The function `parseRFC3339`. -/
def parseRFC3339 : List Char → Option Time
  | y1 :: y2 :: y3 :: y4 :: s1 :: mo1 :: mo2 :: s2 :: d1 :: d2 :: tt :: h1 :: h2 :: s3 ::
      mi1 :: mi2 :: s4 :: se1 :: se2 :: rest =>
    match parseUint [y1, y2, y3, y4] 0 9999, parseUint [mo1, mo2] 1 12,
        parseUint [h1, h2] 0 23, parseUint [mi1, mi2] 0 59, parseUint [se1, se2] 0 59 with
    | some year, some month, some hour, some minute, some second =>
      match parseUint [d1, d2] 1 (daysIn month year) with
      | some day =>
        if s1 = '-' ∧ s2 = '-' ∧ tt = 'T' ∧ s3 = ':' ∧ s4 = ':' then
          match parseFraction rest with
          | some (nsec, rest1) =>
            (parseZone rest1).map fun off =>
              ⟨(year : Int), month, day, hour, minute, second, nsec, off⟩
          | none =>
            (parseZone rest).map fun off =>
              ⟨(year : Int), month, day, hour, minute, second, 0, off⟩
        else none
      | none => none
    | _, _, _, _, _ => none
  | _ => none

/-- The function `getnum`: a one- or two-digit number; with `fixed` it must be
two digits wide. -/
def getnum : List Char → Bool → Option (Nat × List Char)
  | [], _ => none
  | [a], fixed => if isDigit a ∧ fixed = false then some (a.toNat - '0'.toNat, []) else none
  | a :: b :: rest, fixed =>
    if isDigit a then
      if isDigit b then some ((a.toNat - '0'.toNat) * 10 + (b.toNat - '0'.toNat), rest)
      else if fixed then none
      else some (a.toNat - '0'.toNat, b :: rest)
    else none

/-- The next character must be `c`. -/
def expectChar (c : Char) : List Char → Option (List Char)
  | [] => none
  | d :: rest => if d = c then some rest else none

/-- The fraction of a second as `time.Parse` reads it after the seconds: a
period or a comma followed by at least one digit. -/
def parseFractionLayout : List Char → Option (Nat × List Char)
  | sep :: c :: rest =>
    if (sep = '.' ∨ sep = ',') ∧ isDigit c then
      match digitsValue ((c :: (takeDigits rest).1).take 9) 0 with
      | some x =>
        some (x * 10 ^ (9 - ((c :: (takeDigits rest).1).take 9).length), (takeDigits rest).2)
      | none => none
    else none
  | _ => none

/-- The zone of the layout element `Z07:00` as `time.Parse` reads it, with
nothing after it: `Z`, or a sign with two-digit hours (up to 24) and minutes
(up to 60). -/
def parseZoneLayout : List Char → Option Int
  | [z] => if z = 'Z' then some 0 else none
  | [sg, h1, h2, c, m1, m2] =>
    match getnum [h1, h2] true, getnum [m1, m2] true with
    | some (hr, _), some (mm, _) =>
      if c = ':' ∧ hr ≤ 24 ∧ mm ≤ 60 then
        if sg = '+' then some (((hr * 60 + mm) * 60 : Nat) : Int)
        else if sg = '-' then some (-(((hr * 60 + mm) * 60 : Nat) : Int))
        else none
      else none
    | _, _ => none
  | _ => none

/-- What follows the date in the layout `2006-01-02T15:04:05Z07:00`: the
clock (the hour may have one digit), an optional fraction, the zone. -/
def parseClockLayout (year month day : Nat) (s : List Char) : Option Time :=
  match getnum s false with
  | none => none
  | some (hour, r1) =>
    match (expectChar ':' r1).bind fun r => getnum r true with
    | none => none
    | some (minute, r2) =>
      match (expectChar ':' r2).bind fun r => getnum r true with
      | none => none
      | some (second, r3) =>
        if hour < 24 ∧ minute < 60 ∧ second < 60 then
          match parseFractionLayout r3 with
          | some (nsec, r4) =>
            (parseZoneLayout r4).map fun off =>
              ⟨(year : Int), month, day, hour, minute, second, nsec, off⟩
          | none =>
            (parseZoneLayout r3).map fun off =>
              ⟨(year : Int), month, day, hour, minute, second, 0, off⟩
        else none

/-- The call `time.Parse(time.RFC3339, s)`. -/
def parseLayoutRFC3339 : List Char → Option Time
  | y1 :: y2 :: y3 :: y4 :: r0 =>
    match digitsValue [y1, y2, y3, y4] 0 with
    | none => none
    | some year =>
      match (expectChar '-' r0).bind fun r => getnum r true with
      | none => none
      | some (month, r1) =>
        match (expectChar '-' r1).bind fun r => getnum r true with
        | none => none
        | some (day, r2) =>
          if 1 ≤ month ∧ month ≤ 12 ∧ 1 ≤ day ∧ day ≤ daysIn month year then
            (expectChar 'T' r2).bind (parseClockLayout year month day)
          else none
  | _ => none

/-- The function `parseStrictRFC3339` as it stands since Go 1.20: the strict
reader, and for what it rejects the result of `time.Parse` with the RFC 3339
layout, returned without further checks. -/
def parseStrictRFC3339 (s : List Char) : Option Time :=
  match parseRFC3339 s with
  | some t => some t
  | none => parseLayoutRFC3339 s

/-- The `time` package of Go 1.20 and later.  It is used for the concrete
examples; every general result holds for any `TimePkg`. -/
def goTime : TimePkg := ⟨parseStrictRFC3339, formatRFC3339⟩

/-! ## An in-memory user store, used to instantiate the results -/

structure MemStore where
  users : List User
  readOnly : Bool
deriving DecidableEq

def memGetUser (userID : String) (st : MemStore) : Except AppError User × MemStore :=
  match st.users.find? (fun u => u.Id = userID) with
  | some u => (Except.ok u, st)
  | none => (Except.error (NewAppError "GetUser" "app.user.missing_account.const" "" 404), st)

def memUpdateUser (user : User) (st : MemStore) : Except AppError User × MemStore :=
  if st.readOnly then
    (Except.error (NewAppError "UpdateUser" "app.user.update.finding.app_error" "" 500), st)
  else
    (Except.ok user,
      { st with users := st.users.map (fun x => if x.Id = user.Id then user else x) })

def memPlugin : Plugin MemStore :=
  ⟨⟨memGetUser, memUpdateUser⟩, fun e => e.Where ++ ": " ++ e.Id, goTime⟩

/-- The user `u1` with one unrelated property. -/
def user1 : User := ⟨"u1", some [("theme", "dark")], none⟩

/-- A store holding user `u1`. -/
def store1 : MemStore := ⟨[user1], false⟩

/-- The same store, refusing updates. -/
def store1ReadOnly : MemStore := ⟨[user1], true⟩

/-- A store without any user. -/
def store0 : MemStore := ⟨[], false⟩

/-- The query string that carries identity `u1`. -/
def queryU1 : List (String × String) := [("Mattermost-User-ID", "u1")]

/-- A status with the given emoji and text and nothing else set. -/
def plainStatus (emoji text : String) : CustomStatus := ⟨emoji, text, "", Time.zero⟩

/-- A time in the year 10000, which RFC 3339 cannot write. -/
def year10000 : Time := ⟨10000, 1, 1, 0, 0, 0, 0, 0⟩

/-- The time that the timestamp `2024-01-01T00:00:00+24:00` is read as: the
reader accepts a zone offset of 24 hours, the writer refuses it. -/
def offset24 : Time := ⟨2024, 1, 1, 0, 0, 0, 0, 86400⟩

/-- A body whose `expires_at` is that timestamp. -/
def bodyOffset24 : String :=
  "\x7b\"emoji\":\"🎉\",\"expires_at\":\"2024-01-01T00:00:00+24:00\"\x7d"

/-! ## Definitions used to state the results -/

/-- The record `setCustomStatus` leaves behind when the status encodes as
`text`. -/
def withStatus (user : User) (text : String) : User :=
  { makeNonNil user with
    Props := some (((makeNonNil user).Props.getD []).set UserPropsKeyCustomStatus text) }

/-- The error the worker returns for a nil or empty status. -/
def invalidInputError : AppError :=
  NewAppError "SetCustomStatus" "api.custom_status.set_custom_statuses.update.app_error" ""
    StatusBadRequest

/-- Following the spec's words (section 3): a status is a valid update when
at least one of its two fields is non-empty; a nil pointer is not a status. -/
def validStatus : Option CustomStatus → Bool
  | none => false
  | some c => !(c.Emoji = "" && c.Text = "")

/-- Following the spec's words (section 6, "malformed JSON"): a body is
well-formed JSON when it is one JSON value with nothing but white space
before and after it. -/
def wellFormedJSON (body : String) : Bool :=
  match firstValue body.data with
  | some (_, rest) => (skipSpace rest).isEmpty
  | none => false

/-- The characters a timestamp is written with. -/
def isTimestampChar (c : Char) : Bool :=
  isDigit c || c = '-' || c = ':' || c = 'T' || c = '.' || c = 'Z' || c = '+'

/-! ## Lemmas on maps -/

theorem StringMap.get_set_self (m : StringMap) (k v : String) :
    (m.set k v).get k = some v := by
  induction m with
  | nil => simp [StringMap.set, StringMap.get]
  | cons hd tl ih =>
    obtain ⟨k1, v1⟩ := hd
    by_cases h : k1 = k
    · simp [StringMap.set, StringMap.get, h]
    · simp [StringMap.set, StringMap.get, h, ih]

theorem StringMap.get_set_other (m : StringMap) (k v k2 : String) (hne : k2 ≠ k) :
    (m.set k v).get k2 = m.get k2 := by
  induction m with
  | nil => simp [StringMap.set, StringMap.get, Ne.symm hne]
  | cons hd tl ih =>
    obtain ⟨k1, v1⟩ := hd
    by_cases h : k1 = k
    · subst h
      simp [StringMap.set, StringMap.get, Ne.symm hne]
    · simp only [StringMap.set, h, if_false, StringMap.get, ih]

theorem StringMap.mem_keys_set (m : StringMap) (k v k2 : String) :
    k2 ∈ (m.set k v).keys ↔ k2 = k ∨ k2 ∈ m.keys := by
  induction m with
  | nil => simp [StringMap.set, StringMap.keys]
  | cons hd tl ih =>
    obtain ⟨k1, v1⟩ := hd
    by_cases h : k1 = k
    · subst h
      simp [StringMap.set, StringMap.keys]
    · simp only [StringMap.keys] at ih
      simp only [StringMap.set, h, if_false, StringMap.keys, List.map_cons, List.mem_cons, ih]
      tauto

/-! ## Lemmas on the response writer -/

theorem httpError_fresh_status (werr : Option GoError) (msg : String) (code : Nat) :
    (httpError (ResponseWriter.fresh werr) msg code).status = some code := by
  cases werr <;> rfl

theorem httpError_fresh_body (werr : Option GoError) (msg : String) (code : Nat) :
    (httpError (ResponseWriter.fresh werr) msg code).body
      = (match werr with | none => "" ++ (msg ++ "\n") | some _ => "") := by
  cases werr <;> rfl

/-! ## Round trip of the string codec -/

theorem parseStr_quote (pend : Option Nat) (rest : List Char) :
    parseStr pend ('"' :: rest) = flush pend (some ([], rest)) := by
  rw [parseStr.eq_def]; simp

theorem parseStr_raw (c : Char) (rest : List Char) (h1 : c ≠ '"') (h2 : c ≠ '\\')
    (h3 : ¬ c.toNat < 0x20) :
    parseStr none (c :: rest) = consResult c (parseStr none rest) := by
  rw [parseStr.eq_def]; simp [h1, h2, h3, flush]

theorem timestampChar_raw (c : Char) (h : isTimestampChar c = true) :
    c ≠ '"' ∧ c ≠ '\\' ∧ ¬ c.toNat < 0x20 ∧ compactChar c = [c] := by
  simp only [isTimestampChar, isDigit, Bool.or_eq_true, Bool.and_eq_true,
    decide_eq_true_eq] at h
  rcases h with (((((⟨h1, h2⟩ | h) | h) | h) | h) | h) | h
  · have hd1 : ('0' : Char).toNat = 48 := by decide
    have hd2 : ('9' : Char).toNat = 57 := by decide
    rw [hd1] at h1
    rw [hd2] at h2
    refine ⟨?_, ?_, by omega, ?_⟩
    · intro hq; subst hq; revert h1; decide
    · intro hq; subst hq; revert h2; decide
    · have n1 : c ≠ '<' := by intro hq; subst hq; revert h2; decide
      have n2 : c ≠ '>' := by intro hq; subst hq; revert h2; decide
      have n3 : c ≠ '&' := by intro hq; subst hq; revert h1; decide
      have n4 : ¬ (c.toNat = 0x2028 ∨ c.toNat = 0x2029) := by omega
      simp [compactChar, n1, n2, n3, n4]
  all_goals
    subst h
    exact ⟨by decide, by decide, by decide, by decide⟩

theorem parseStr_timestamp (ts rest : List Char) (h : ∀ c ∈ ts, isTimestampChar c = true) :
    parseStr none (ts ++ '"' :: rest) = some (ts, rest) := by
  induction ts with
  | nil => simp [parseStr_quote, flush]
  | cons c ts ih =>
    have hc := timestampChar_raw c (h c (List.mem_cons_self _ _))
    rw [List.cons_append, parseStr_raw c _ hc.1 hc.2.1 hc.2.2.1,
      ih (fun d hd => h d (List.mem_cons_of_mem _ hd))]
    rfl

theorem compactString_timestamp (ts : List Char) (h : ∀ c ∈ ts, isTimestampChar c = true) :
    compactString ts = ts := by
  induction ts with
  | nil => rfl
  | cons c ts ih =>
    have hc := timestampChar_raw c (h c (List.mem_cons_self _ _))
    simp [compactString, hc.2.2.2, ih (fun d hd => h d (List.mem_cons_of_mem _ hd))]

/-- A timestamp written with timestamp characters is encoded between quotes,
unchanged. -/
theorem marshalTime_timestamp (tp : TimePkg) (t : Time) (ts : List Char)
    (hfmt : tp.format t = Except.ok ts) (hal : ∀ c ∈ ts, isTimestampChar c = true) :
    marshalTime tp t = Except.ok ('"' :: (ts ++ ['"'])) := by
  have hp : parseStringBody (ts ++ ['"']) = some (ts, []) := parseStr_timestamp ts [] hal
  simp [marshalTime, hfmt, hp, compactString_timestamp ts hal]

theorem skipSpace_length_le (cs : List Char) : (skipSpace cs).length ≤ cs.length := by
  induction cs with
  | nil => simp [skipSpace]
  | cons c rest ih =>
    simp only [skipSpace]
    split_ifs
    · simp only [List.length_cons]; omega
    · exact le_rfl

theorem consResult_some (c : Char) (x : Option (List Char × List Char)) (s r : List Char)
    (h : consResult c x = some (s, r)) : ∃ s1, x = some (s1, r) := by
  cases x with
  | none => simp [consResult] at h
  | some y =>
    obtain ⟨s1, r1⟩ := y
    simp only [consResult, Option.some.injEq, Prod.mk.injEq] at h
    exact ⟨s1, by rw [h.2]⟩

theorem flush_some (pend : Option Nat) (x : Option (List Char × List Char)) (s r : List Char)
    (h : flush pend x = some (s, r)) : ∃ s1, x = some (s1, r) := by
  cases pend with
  | none => exact ⟨s, h⟩
  | some hi => exact consResult_some _ _ _ _ h

theorem parseStr_length_lt (n : Nat) :
    ∀ (cs : List Char) (pend : Option Nat) (s r : List Char), cs.length ≤ n →
      parseStr pend cs = some (s, r) → r.length < cs.length := by
  induction n using Nat.strong_induction_on with
  | _ n ih =>
    intro cs pend s r hn h
    rw [parseStr.eq_def] at h
    split at h
    · simp at h
    · rename_i pend c rest
      simp only [List.length_cons] at hn ⊢
      split_ifs at h with h1 h2 h3
      · obtain ⟨s1, hs⟩ := flush_some _ _ _ _ h
        simp only [Option.some.injEq, Prod.mk.injEq] at hs
        rw [← hs.2]; omega
      · split at h
        · simp at h
        · rename_i e rest1
          simp only [List.length_cons] at hn ⊢
          split_ifs at h with h4
          · split at h
            · rename_i a b c2 d rest2
              simp only [List.length_cons] at hn ⊢
              split at h
              · simp at h
              · split at h
                · obtain ⟨s1, hs⟩ := consResult_some _ _ _ _ h
                  have := ih (n - 1) (by omega) rest2 none s1 r (by omega) hs
                  omega
                · split_ifs at h
                  · obtain ⟨s1, hs⟩ := flush_some _ _ _ _ h
                    have := ih (n - 1) (by omega) rest2 _ s1 r (by omega) hs
                    omega
                  · obtain ⟨s1, hs⟩ := flush_some _ _ _ _ h
                    obtain ⟨s2, hs2⟩ := consResult_some _ _ _ _ hs
                    have := ih (n - 1) (by omega) rest2 none s2 r (by omega) hs2
                    omega
            · simp at h
          · split at h
            · obtain ⟨s1, hs⟩ := flush_some _ _ _ _ h
              obtain ⟨s2, hs2⟩ := consResult_some _ _ _ _ hs
              have := ih (n - 1) (by omega) rest1 none s2 r (by omega) hs2
              omega
            · simp at h
      · obtain ⟨s1, hs⟩ := flush_some _ _ _ _ h
        obtain ⟨s2, hs2⟩ := consResult_some _ _ _ _ hs
        have := ih (n - 1) (by omega) rest none s2 r (by omega) hs2
        omega

theorem parseStringBody_length_lt (cs s r : List Char)
    (h : parseStringBody cs = some (s, r)) : r.length < cs.length :=
  parseStr_length_lt cs.length cs none s r le_rfl h

theorem takeDigits_length_le (cs : List Char) : (takeDigits cs).2.length ≤ cs.length := by
  induction cs with
  | nil => simp [takeDigits]
  | cons c rest ih =>
    simp only [takeDigits]
    split_ifs
    · simp only [List.length_cons]; omega
    · exact le_rfl

theorem parseInt_length_le (cs n r : List Char) (h : parseInt cs = some (n, r)) :
    r.length ≤ cs.length := by
  cases cs with
  | nil => simp [parseInt] at h
  | cons c rest =>
    simp only [parseInt] at h
    split_ifs at h
    · simp only [Option.some.injEq, Prod.mk.injEq] at h
      rw [← h.2]; simp
    · simp only [Option.some.injEq, Prod.mk.injEq] at h
      have := takeDigits_length_le rest
      rw [← h.2]; simp only [List.length_cons]; omega

theorem parseFrac_length_le (cs n r : List Char) (h : parseFrac cs = some (n, r)) :
    r.length ≤ cs.length := by
  cases cs with
  | nil =>
    simp only [parseFrac, Option.some.injEq, Prod.mk.injEq] at h
    rw [← h.2]
  | cons c rest =>
    simp only [parseFrac] at h
    split_ifs at h
    · have hd := takeDigits_length_le rest
      split at h
      · simp at h
      · rename_i ds r1 _ heq
        simp only [Option.some.injEq, Prod.mk.injEq] at h
        rw [heq] at hd
        rw [← h.2]; simp only [List.length_cons]; simp only at hd; omega
    · simp only [Option.some.injEq, Prod.mk.injEq] at h
      rw [← h.2]

theorem parseExp_length_le (cs n r : List Char) (h : parseExp cs = some (n, r)) :
    r.length ≤ cs.length := by
  cases cs with
  | nil =>
    simp only [parseExp, Option.some.injEq, Prod.mk.injEq] at h
    rw [← h.2]
  | cons c rest =>
    simp only [parseExp] at h
    split_ifs at h
    · split at h
      · simp at h
      · rename_i s rest1
        split_ifs at h
        · have hd := takeDigits_length_le rest1
          split at h
          · simp at h
          · rename_i ds r1 _ heq
            simp only [Option.some.injEq, Prod.mk.injEq] at h
            rw [heq] at hd
            rw [← h.2]; simp only [List.length_cons]; simp only at hd; omega
        · have hd := takeDigits_length_le (s :: rest1)
          split at h
          · simp at h
          · rename_i ds r1 _ heq
            simp only [Option.some.injEq, Prod.mk.injEq] at h
            rw [heq] at hd
            rw [← h.2]; simp only [List.length_cons] at hd ⊢; omega
    · simp only [Option.some.injEq, Prod.mk.injEq] at h
      rw [← h.2]

theorem parseUnsigned_length_le (cs n r : List Char) (h : parseUnsigned cs = some (n, r)) :
    r.length ≤ cs.length := by
  unfold parseUnsigned at h
  split at h
  · simp at h
  · rename_i i r1 h1
    split at h
    · simp at h
    · rename_i f r2 h2
      split at h
      · simp at h
      · rename_i e r3 h3
        simp only [Option.some.injEq, Prod.mk.injEq] at h
        have := parseInt_length_le _ _ _ h1
        have := parseFrac_length_le _ _ _ h2
        have := parseExp_length_le _ _ _ h3
        rw [← h.2]; omega

theorem parseNumber_length_le (cs n r : List Char) (h : parseNumber cs = some (n, r)) :
    r.length ≤ cs.length := by
  cases cs with
  | nil => simp [parseNumber] at h
  | cons c rest =>
    simp only [parseNumber] at h
    split_ifs at h
    · split at h
      · rename_i n1 r1 h1
        simp only [Option.some.injEq, Prod.mk.injEq] at h
        have := parseUnsigned_length_le _ _ _ h1
        rw [← h.2]; simp only [List.length_cons]; omega
      · simp at h
    · exact parseUnsigned_length_le _ _ _ h

theorem stripLiteral_length_le (lit cs r : List Char) (h : stripLiteral lit cs = some r) :
    r.length ≤ cs.length := by
  induction lit generalizing cs with
  | nil =>
    simp only [stripLiteral, Option.some.injEq] at h
    rw [h]
  | cons l lit ih =>
    cases cs with
    | nil => simp [stripLiteral] at h
    | cons c cs =>
      simp only [stripLiteral] at h
      split_ifs at h
      have := ih cs h
      simp only [List.length_cons]; omega

theorem parse_length_le (f : Nat) : ∀ (d : Nat) (cs : List Char),
    (∀ v r, parseValue f d cs = some (v, r) → r.length ≤ cs.length)
    ∧ (∀ ms r, parseMembers f d cs = some (ms, r) → r.length ≤ cs.length)
    ∧ (∀ es r, parseElements f d cs = some (es, r) → r.length ≤ cs.length) := by
  induction f with
  | zero =>
    intro d cs
    refine ⟨fun v r h => ?_, fun ms r h => ?_, fun es r h => ?_⟩
    · rw [parseValue.eq_def] at h; simp at h
    · rw [parseMembers.eq_def] at h; simp at h
    · rw [parseElements.eq_def] at h; simp at h
  | succ f ih =>
    intro d cs
    refine ⟨fun v r h => ?_, fun ms r h => ?_, fun es r h => ?_⟩
    · rw [parseValue.eq_def] at h
      cases cs with
      | nil => simp at h
      | cons c rest =>
        simp only [List.length_cons] at h ⊢
        split_ifs at h with h1 h2 h3 h4 h5 h6 h7 h8
        · have hsk := skipSpace_length_le rest
          split at h
          · simp at h
          · rename_i c1 rest1 heq
            rw [heq] at hsk
            simp only [List.length_cons] at hsk
            split_ifs at h
            · simp only [Option.some.injEq, Prod.mk.injEq] at h
              rw [← h.2]; omega
            · split at h
              · rename_i ms r1 hm
                simp only [Option.some.injEq, Prod.mk.injEq] at h
                have := (ih (d + 1) (c1 :: rest1)).2.1 ms r1 hm
                simp only [List.length_cons] at this
                rw [← h.2]; omega
              · simp at h
        · have hsk := skipSpace_length_le rest
          split at h
          · simp at h
          · rename_i c1 rest1 heq
            rw [heq] at hsk
            simp only [List.length_cons] at hsk
            split_ifs at h
            · simp only [Option.some.injEq, Prod.mk.injEq] at h
              rw [← h.2]; omega
            · split at h
              · rename_i es r1 hm
                simp only [Option.some.injEq, Prod.mk.injEq] at h
                have := (ih (d + 1) (c1 :: rest1)).2.2 es r1 hm
                simp only [List.length_cons] at this
                rw [← h.2]; omega
              · simp at h
        · split at h
          · rename_i s r1 hs
            simp only [Option.some.injEq, Prod.mk.injEq] at h
            have := parseStringBody_length_lt _ _ _ hs
            rw [← h.2]; omega
          · simp at h
        · split at h
          · rename_i r1 hs
            simp only [Option.some.injEq, Prod.mk.injEq] at h
            have := stripLiteral_length_le _ _ _ hs
            rw [← h.2]; omega
          · simp at h
        · split at h
          · rename_i r1 hs
            simp only [Option.some.injEq, Prod.mk.injEq] at h
            have := stripLiteral_length_le _ _ _ hs
            rw [← h.2]; omega
          · simp at h
        · split at h
          · rename_i r1 hs
            simp only [Option.some.injEq, Prod.mk.injEq] at h
            have := stripLiteral_length_le _ _ _ hs
            rw [← h.2]; omega
          · simp at h
        · split at h
          · rename_i n r1 hs
            simp only [Option.some.injEq, Prod.mk.injEq] at h
            have := parseNumber_length_le _ _ _ hs
            simp only [List.length_cons] at this
            rw [← h.2]; omega
          · simp at h
    · rw [parseMembers.eq_def] at h
      cases cs with
      | nil => simp at h
      | cons c rest =>
        simp only [List.length_cons] at h ⊢
        split_ifs at h with h1
        split at h
        · simp at h
        · rename_i k r1 hk
          have hk1 := parseStringBody_length_lt _ _ _ hk
          have hsk1 := skipSpace_length_le r1
          split at h
          · simp at h
          · rename_i c2 r2 heq2
            rw [heq2] at hsk1
            simp only [List.length_cons] at hsk1
            split_ifs at h
            have hsk2 := skipSpace_length_le r2
            split at h
            · simp at h
            · rename_i v r3 hv
              have hv1 := (ih d (skipSpace r2)).1 v r3 hv
              have hsk3 := skipSpace_length_le r3
              split at h
              · simp at h
              · rename_i c3 r4 heq3
                rw [heq3] at hsk3
                simp only [List.length_cons] at hsk3
                split_ifs at h
                · split at h
                  · rename_i ms1 r5 hm
                    simp only [Option.some.injEq, Prod.mk.injEq] at h
                    have hm1 := (ih d (skipSpace r4)).2.1 ms1 r5 hm
                    have hsk4 := skipSpace_length_le r4
                    rw [← h.2]; omega
                  · simp at h
                · simp only [Option.some.injEq, Prod.mk.injEq] at h
                  rw [← h.2]; omega
    · rw [parseElements.eq_def] at h
      simp only at h
      split at h
      · simp at h
      · rename_i v r1 hv
        have hv1 := (ih d cs).1 v r1 hv
        have hsk1 := skipSpace_length_le r1
        split at h
        · simp at h
        · rename_i c2 r2 heq2
          rw [heq2] at hsk1
          simp only [List.length_cons] at hsk1
          split_ifs at h
          · split at h
            · rename_i es1 r3 hm
              simp only [Option.some.injEq, Prod.mk.injEq] at h
              have hm1 := (ih d (skipSpace r2)).2.2 es1 r3 hm
              have hsk2 := skipSpace_length_le r2
              rw [← h.2]; omega
            · simp at h
          · simp only [Option.some.injEq, Prod.mk.injEq] at h
            rw [← h.2]; omega

theorem parse_fuel_stable (f : Nat) : ∀ (g d : Nat) (cs : List Char), f ≤ g →
    (2 * cs.length + 1 ≤ f → parseValue f d cs = parseValue g d cs)
    ∧ (2 * cs.length + 1 ≤ f → parseMembers f d cs = parseMembers g d cs)
    ∧ (2 * cs.length + 2 ≤ f → parseElements f d cs = parseElements g d cs) := by
  induction f with
  | zero =>
    intro g d cs _
    exact ⟨fun h => by omega, fun h => by omega, fun h => by omega⟩
  | succ f ih =>
    intro g d cs hfg
    obtain ⟨g1, rfl⟩ : ∃ g1, g = g1 + 1 := ⟨g - 1, by omega⟩
    have hfg1 : f ≤ g1 := by omega
    refine ⟨fun hlen => ?_, fun hlen => ?_, fun hlen => ?_⟩
    · cases cs with
      | nil => rw [parseValue.eq_def (f + 1), parseValue.eq_def (g1 + 1)]
      | cons c rest =>
        simp only [List.length_cons] at hlen
        rw [parseValue.eq_def (f + 1), parseValue.eq_def (g1 + 1)]
        simp only
        have hsk := skipSpace_length_le rest
        cases heq : skipSpace rest with
        | nil => rfl
        | cons c1 rest1 =>
          rw [heq] at hsk
          simp only [List.length_cons] at hsk
          simp only
          rw [(ih g1 (d + 1) (c1 :: rest1) hfg1).2.1 (by simp only [List.length_cons]; omega),
            (ih g1 (d + 1) (c1 :: rest1) hfg1).2.2 (by simp only [List.length_cons]; omega)]
    · cases cs with
      | nil => rw [parseMembers.eq_def (f + 1), parseMembers.eq_def (g1 + 1)]
      | cons c rest =>
        simp only [List.length_cons] at hlen
        rw [parseMembers.eq_def (f + 1), parseMembers.eq_def (g1 + 1)]
        simp only
        cases hk : parseStringBody rest with
        | none => rfl
        | some kr =>
          obtain ⟨k, r1⟩ := kr
          have hk1 := parseStringBody_length_lt _ _ _ hk
          have hsk1 := skipSpace_length_le r1
          simp only
          cases heq2 : skipSpace r1 with
          | nil => rfl
          | cons c2 r2 =>
            rw [heq2] at hsk1
            simp only [List.length_cons] at hsk1
            have hsk2 := skipSpace_length_le r2
            simp only
            rw [(ih g1 d (skipSpace r2) hfg1).1 (by omega)]
            cases hv : parseValue g1 d (skipSpace r2) with
            | none => rfl
            | some vr =>
              obtain ⟨v, r3⟩ := vr
              have hv1 := (parse_length_le g1 d (skipSpace r2)).1 v r3 hv
              have hsk3 := skipSpace_length_le r3
              simp only
              cases heq3 : skipSpace r3 with
              | nil => rfl
              | cons c3 r4 =>
                rw [heq3] at hsk3
                simp only [List.length_cons] at hsk3
                have hsk4 := skipSpace_length_le r4
                simp only
                rw [(ih g1 d (skipSpace r4) hfg1).2.1 (by omega)]
    · rw [parseElements.eq_def (f + 1), parseElements.eq_def (g1 + 1)]
      simp only
      rw [(ih g1 d cs hfg1).1 (by omega)]
      cases hv : parseValue g1 d cs with
      | none => rfl
      | some vr =>
        obtain ⟨v, r1⟩ := vr
        have hv1 := (parse_length_le g1 d cs).1 v r1 hv
        have hsk1 := skipSpace_length_le r1
        simp only
        cases heq2 : skipSpace r1 with
        | nil => rfl
        | cons c2 r2 =>
          rw [heq2] at hsk1
          simp only [List.length_cons] at hsk1
          have hsk2 := skipSpace_length_le r2
          simp only
          rw [(ih g1 d (skipSpace r2) hfg1).2.2 (by omega)]

/-- Any larger bound on nested calls gives the same first value: the bound
`firstValue` uses is never what makes it fail. -/
theorem firstValue_fuel_independent (body : List Char) (g d : Nat)
    (hg : 2 * body.length + 2 ≤ g) :
    parseValue g d (skipSpace body) = parseValue (2 * body.length + 2) d (skipSpace body) := by
  have hsk := skipSpace_length_le body
  exact ((parse_fuel_stable (2 * body.length + 2) g d (skipSpace body) hg).1 (by omega)).symm

/-! ## The steps of the worker -/

theorem setCustomStatus_ok (tp : TimePkg) (user : User) (cs : CustomStatus) (text : String)
    (hm : Marshal tp cs = Except.ok text) :
    setCustomStatus tp user cs = (withStatus user text, none) := by
  simp [setCustomStatus, hm, withStatus]

theorem setCustomStatus_failed (tp : TimePkg) (user : User) (cs : CustomStatus) (e : GoError)
    (hm : Marshal tp cs = Except.error e) :
    setCustomStatus tp user cs = (makeNonNil user, some e) := by
  simp [setCustomStatus, hm]

theorem makeNonNil_fields (user : User) :
    (makeNonNil user).Props = some (user.Props.getD [])
    ∧ (makeNonNil user).NotifyProps = some (user.NotifyProps.getD [])
    ∧ (makeNonNil user).Id = user.Id := by
  obtain ⟨id, props, notify⟩ := user
  cases props <;> cases notify <;> exact ⟨rfl, rfl, rfl⟩

theorem worker_invalid {σ : Type} (p : Plugin σ) (userID : String) (c : CustomStatus)
    (s : World σ) (h : c.Emoji = "" ∧ c.Text = "") :
    SetCustomStatusWorker p userID (some c) s = (some invalidInputError, s) := by
  simp [SetCustomStatusWorker, h, invalidInputError]

theorem worker_get_failed {σ : Type} (p : Plugin σ) (userID : String) (c : CustomStatus)
    (s : World σ) (e : AppError) (st1 : σ) (hv : ¬ (c.Emoji = "" ∧ c.Text = ""))
    (hget : p.API.GetUser userID s.store = (Except.error e, st1)) :
    SetCustomStatusWorker p userID (some c) s
      = (some (NewAppError "SetCustomStatus"
          "api.custom_status.set_custom_statuses.user_not_found" ""
          StatusInternalServerError),
         ⟨st1, s.trace ++ [Call.GetUser userID]⟩) := by
  simp [SetCustomStatusWorker, hv, Plugin.GetUser, hget]

theorem worker_set_failed {σ : Type} (p : Plugin σ) (userID : String) (c : CustomStatus)
    (s : World σ) (user : User) (e : GoError) (st1 : σ)
    (hv : ¬ (c.Emoji = "" ∧ c.Text = ""))
    (hget : p.API.GetUser userID s.store = (Except.ok user, st1))
    (hm : Marshal p.time c = Except.error e) :
    SetCustomStatusWorker p userID (some c) s
      = (some (NewAppError "SetCustomStatus"
          "api.custom_status.set_custom_statuses.set_failed" ""
          StatusInternalServerError),
         ⟨st1, s.trace ++ [Call.GetUser userID,
            Call.LogError "Failed to set custom status"
              [LogValue.str "userID", LogValue.str userID, LogValue.str "error",
               LogValue.err (some e)]]⟩) := by
  simp [SetCustomStatusWorker, hv, Plugin.GetUser, hget, setCustomStatus_failed _ _ _ _ hm,
    Plugin.LogError]

theorem worker_update_failed {σ : Type} (p : Plugin σ) (userID : String) (c : CustomStatus)
    (s : World σ) (user : User) (text : String) (e : AppError) (st1 st2 : σ)
    (hv : ¬ (c.Emoji = "" ∧ c.Text = ""))
    (hget : p.API.GetUser userID s.store = (Except.ok user, st1))
    (hm : Marshal p.time c = Except.ok text)
    (hupd : p.API.UpdateUser (withStatus user text) st1 = (Except.error e, st2)) :
    SetCustomStatusWorker p userID (some c) s
      = (some (NewAppError "SetCustomStatus"
          "api.custom_status.set_custom_statuses.update_failed" ""
          StatusInternalServerError),
         ⟨st2, s.trace ++ [Call.GetUser userID, Call.UpdateUser (withStatus user text),
            Call.LogError "Failed to update user"
              [LogValue.str "userID", LogValue.str userID, LogValue.str "error",
               LogValue.appErr none]]⟩) := by
  simp [SetCustomStatusWorker, hv, Plugin.GetUser, hget, setCustomStatus_ok _ _ _ _ hm,
    Plugin.UpdateUser, hupd, Plugin.LogError, errOf]

theorem worker_succeeded {σ : Type} (p : Plugin σ) (userID : String) (c : CustomStatus)
    (s : World σ) (user stored : User) (text : String) (st1 st2 : σ)
    (hv : ¬ (c.Emoji = "" ∧ c.Text = ""))
    (hget : p.API.GetUser userID s.store = (Except.ok user, st1))
    (hm : Marshal p.time c = Except.ok text)
    (hupd : p.API.UpdateUser (withStatus user text) st1 = (Except.ok stored, st2)) :
    SetCustomStatusWorker p userID (some c) s
      = (none, ⟨st2, s.trace ++ [Call.GetUser userID,
            Call.UpdateUser (withStatus user text)]⟩) := by
  simp [SetCustomStatusWorker, hv, Plugin.GetUser, hget, setCustomStatus_ok _ _ _ _ hm,
    Plugin.UpdateUser, hupd]

/-! ## The pipeline on its two routes -/

theorem ServeHTTP_put {σ : Type} (p : Plugin σ) (w : ResponseWriter)
    (query : List (String × String)) (body : String) (s : World σ) :
    ServeHTTP p w (Route.customStatusChange.request query body) s
      = MattermostAuthorizationRequired p (CustomStatusChange p) w
          (Route.customStatusChange.request query body) s := by
  simp [ServeHTTP, Route.request, Route.path, Route.method]

theorem ServeHTTP_get {σ : Type} (p : Plugin σ) (w : ResponseWriter)
    (query : List (String × String)) (body : String) (s : World σ) :
    ServeHTTP p w (Route.hello.request query body) s
      = MattermostAuthorizationRequired p (HelloWorld p) w
          (Route.hello.request query body) s := by
  simp [ServeHTTP, Route.request, Route.path, Route.method]

theorem ServeHTTP_unauthorized {σ : Type} (p : Plugin σ) (w : ResponseWriter) (rt : Route)
    (query : List (String × String)) (body : String) (s : World σ)
    (hid : queryGet query "Mattermost-User-ID" = "") :
    ServeHTTP p w (rt.request query body) s
      = (httpError w "Not authorized" StatusUnauthorized, s) := by
  cases rt
  · rw [ServeHTTP_get]; simp [MattermostAuthorizationRequired, Route.request, hid]
  · rw [ServeHTTP_put]; simp [MattermostAuthorizationRequired, Route.request, hid]

theorem ServeHTTP_put_decoded {σ : Type} (p : Plugin σ) (w : ResponseWriter)
    (query : List (String × String)) (body : String) (s : World σ) (cs : CustomStatus)
    (hid : queryGet query "Mattermost-User-ID" ≠ "")
    (hbody : Decode p.time body = Except.ok cs) :
    ServeHTTP p w (Route.customStatusChange.request query body) s
      = (match SetCustomStatusWorker p (queryGet query "Mattermost-User-ID") (some cs) s with
         | (some appErr, s1) => (httpError w (p.errorText appErr) appErr.StatusCode, s1)
         | (none, s1) => (w.WriteHeader StatusOK, s1)) := by
  rw [ServeHTTP_put]
  simp [MattermostAuthorizationRequired, CustomStatusChange, Route.request, hid, hbody]

theorem ServeHTTP_put_undecodable {σ : Type} (p : Plugin σ) (w : ResponseWriter)
    (query : List (String × String)) (body : String) (s : World σ) (e : JSONError)
    (hid : queryGet query "Mattermost-User-ID" ≠ "")
    (hbody : Decode p.time body = Except.error e) :
    ServeHTTP p w (Route.customStatusChange.request query body) s
      = (httpError w "Invalid request body" StatusBadRequest, s) := by
  rw [ServeHTTP_put]
  simp [MattermostAuthorizationRequired, CustomStatusChange, Route.request, hid, hbody]

/-- A PUT that carries an identity is answered 400, with the world left as it
was, whenever its body does not decode to a status with a non-empty emoji or
text. -/
theorem ServeHTTP_put_no_valid_status {σ : Type} (p : Plugin σ) (werr : Option GoError)
    (query : List (String × String)) (body : String) (s : World σ)
    (hid : queryGet query "Mattermost-User-ID" ≠ "")
    (hlead : ∀ cs, Decode p.time body = Except.ok cs → cs.Emoji = "" ∧ cs.Text = "") :
    (ServeHTTP p (ResponseWriter.fresh werr)
        (Route.customStatusChange.request query body) s).1.status = some 400
    ∧ (ServeHTTP p (ResponseWriter.fresh werr)
        (Route.customStatusChange.request query body) s).2 = s := by
  rcases hd : Decode p.time body with e | cs
  · rw [ServeHTTP_put_undecodable p _ query body s e hid hd]
    exact ⟨httpError_fresh_status _ _ _, rfl⟩
  · rw [ServeHTTP_put_decoded p _ query body s cs hid hd,
      worker_invalid p _ cs s (hlead cs hd)]
    exact ⟨httpError_fresh_status _ _ _, rfl⟩

/-- Bodies whose `duration` or `expires_at` has the wrong type are not decoded,
whatever the time package: a number for `duration`, a number for
`expires_at`; and the strict reader rejects the timestamp `x`.  Such a PUT is
answered 400 without any call. -/
theorem Decode_rejects_wrong_field_types (tp : TimePkg) :
    Decode tp "\x7b\"emoji\":\"a\",\"duration\":5\x7d" = Except.error JSONError.UnmarshalType
    ∧ Decode tp "\x7b\"emoji\":\"a\",\"expires_at\":5\x7d"
        = Except.error JSONError.UnmarshalType
    ∧ Decode goTime "\x7b\"emoji\":\"a\",\"expires_at\":\"x\"\x7d"
        = Except.error JSONError.UnmarshalType
    ∧ (ServeHTTP memPlugin (ResponseWriter.fresh none)
        (Route.customStatusChange.request queryU1
          "\x7b\"emoji\":\"a\",\"expires_at\":\"x\"\x7d")
        (World.init store1)).1.status = some 400
    ∧ (ServeHTTP memPlugin (ResponseWriter.fresh none)
        (Route.customStatusChange.request queryU1
          "\x7b\"emoji\":\"a\",\"expires_at\":\"x\"\x7d")
        (World.init store1)).2.trace = [] :=
  ⟨rfl, rfl, rfl, rfl, rfl⟩

/-- An encoding failure reached through the handler: the body whose
`expires_at` is `2024-01-01T00:00:00+24:00` is decoded (the reader accepts a
zone offset of 24 hours), the writer refuses that time, so `json.Marshal`
fails after `GetUser`: the request is answered 500, the failure is logged and
`UpdateUser` is not called. -/
theorem encoding_failure_through_handler :
    Decode goTime bodyOffset24 = Except.ok ⟨"🎉", "", "", offset24⟩
    ∧ Marshal goTime ⟨"🎉", "", "", offset24⟩
        = Except.error
            "json: error calling MarshalJSON for type time.Time: Time.MarshalJSON: timezone hour outside of range [0,23]"
    ∧ (setCustomStatus goTime user1 ⟨"🎉", "", "", offset24⟩).1.Props
        = some [("theme", "dark")]
    ∧ (ServeHTTP memPlugin (ResponseWriter.fresh none)
        (Route.customStatusChange.request queryU1 bodyOffset24)
        (World.init store1)).1.status = some 500
    ∧ (ServeHTTP memPlugin (ResponseWriter.fresh none)
        (Route.customStatusChange.request queryU1 bodyOffset24)
        (World.init store1)).2.trace
        = [Call.GetUser "u1",
           Call.LogError "Failed to set custom status"
             [LogValue.str "userID", LogValue.str "u1", LogValue.str "error",
              LogValue.err (some
                "json: error calling MarshalJSON for type time.Time: Time.MarshalJSON: timezone hour outside of range [0,23]")]] :=
  ⟨rfl, rfl, rfl, rfl, rfl⟩

/-! ## The claims -/

/-- Claim C1: for every identity and every status whose emoji and text are both
empty, the worker returns an error with status 400 and leaves the world as it
was (no `GetUser`, no `UpdateUser`, no other call); and a PUT on
`/custom-status-change` with identity `u1` and body `{}` is answered 400 with
the world untouched. -/
theorem C1_empty_status_invalid_input {σ : Type} (p : Plugin σ) (userID : String)
    (cs : CustomStatus) (s : World σ) (werr : Option GoError)
    (hempty : cs.Emoji = "" ∧ cs.Text = "") :
    (∃ e, (SetCustomStatusWorker p userID (some cs) s).1 = some e ∧ e.StatusCode = 400)
    ∧ (SetCustomStatusWorker p userID (some cs) s).2 = s
    ∧ countGetUser (SetCustomStatusWorker p userID (some cs) s).2.trace
        = countGetUser s.trace
    ∧ countUpdateUser (SetCustomStatusWorker p userID (some cs) s).2.trace
        = countUpdateUser s.trace
    ∧ (ServeHTTP p (ResponseWriter.fresh werr)
        (Route.customStatusChange.request [("Mattermost-User-ID", "u1")] "\x7b\x7d") s).1.status
        = some 400
    ∧ (ServeHTTP p (ResponseWriter.fresh werr)
        (Route.customStatusChange.request [("Mattermost-User-ID", "u1")] "\x7b\x7d") s).2 = s := by
  have hw := worker_invalid p userID cs s hempty
  have hd : Decode p.time "\x7b\x7d" = Except.ok CustomStatus.zero := rfl
  have hp := ServeHTTP_put_decoded p (ResponseWriter.fresh werr)
    [("Mattermost-User-ID", "u1")] "\x7b\x7d" s CustomStatus.zero (by decide) hd
  rw [worker_invalid p _ CustomStatus.zero s ⟨rfl, rfl⟩] at hp
  refine ⟨⟨invalidInputError, by rw [hw], rfl⟩, by rw [hw], by rw [hw], by rw [hw], ?_, ?_⟩
  · rw [hp]; exact httpError_fresh_status _ _ _
  · rw [hp]

/-- Claim C1 at a concrete input: the worker and the pipeline on the in-memory
store, for the empty status and the body `{}`. -/
theorem C1_witness :
    (SetCustomStatusWorker memPlugin "u1" (some (plainStatus "" "")) (World.init store1)).2
        = World.init store1
    ∧ (ServeHTTP memPlugin (ResponseWriter.fresh none)
        (Route.customStatusChange.request [("Mattermost-User-ID", "u1")] "\x7b\x7d")
        (World.init store1)).1.status = some 400 :=
  have h := C1_empty_status_invalid_input memPlugin "u1" (plainStatus "" "")
    (World.init store1) none ⟨rfl, rfl⟩
  ⟨h.2.1, h.2.2.2.2.1⟩

/-- Claim C2 as stated fails: for identity `u1` and the body
`{"emoji":"😀","text":"Busy"}` the record given to `UpdateUser` holds, under
`customStatus`, the encoding of all four fields of the status, which is not
the string `{"emoji":"😀","text":"Busy"}`. -/
theorem C2_counterexample :
    (ServeHTTP memPlugin (ResponseWriter.fresh none)
        (Route.customStatusChange.request queryU1 "\x7b\"emoji\":\"😀\",\"text\":\"Busy\"\x7d")
        (World.init store1)).2.trace
      = [Call.GetUser "u1",
         Call.UpdateUser ⟨"u1", some [("theme", "dark"), ("customStatus",
           "\x7b\"emoji\":\"😀\",\"text\":\"Busy\",\"duration\":\"\",\"expires_at\":\"0001-01-01T00:00:00Z\"\x7d")],
           some []⟩]
    ∧ ("\x7b\"emoji\":\"😀\",\"text\":\"Busy\",\"duration\":\"\",\"expires_at\":\"0001-01-01T00:00:00Z\"\x7d" : String)
        ≠ "\x7b\"emoji\":\"😀\",\"text\":\"Busy\"\x7d" :=
  ⟨rfl, by decide⟩

/-- Claim C2, amended: for every non-empty identity and every PUT body that
decodes to a status with a non-empty emoji or text and whose `expires_at`
encodes (as `tx`), when `GetUser` and `UpdateUser` both succeed the response
is 200 with an empty body, and the calls made are `GetUser` followed by
exactly one `UpdateUser`, whose record has `props["customStatus"]` equal to
the JSON object with the four fields `emoji`, `text`, `duration` and
`expires_at` of the decoded status, in that order.  An unset `expires_at`
that the time package writes as `0001-01-01T00:00:00Z` is encoded as that
timestamp between quotes. -/
theorem C2_put_stores_four_field_encoding {σ : Type} (p : Plugin σ)
    (query : List (String × String)) (body : String) (werr : Option GoError)
    (s : World σ) (cs : CustomStatus) (tx : List Char) (user stored : User) (st1 st2 : σ)
    (hid : queryGet query "Mattermost-User-ID" ≠ "")
    (hbody : Decode p.time body = Except.ok cs)
    (hvalid : cs.Emoji ≠ "" ∨ cs.Text ≠ "")
    (htime : marshalTime p.time cs.ExpiresAt = Except.ok tx)
    (hget : p.API.GetUser (queryGet query "Mattermost-User-ID") s.store = (Except.ok user, st1))
    (hupd : p.API.UpdateUser (withStatus user (statusText cs tx)) st1
      = (Except.ok stored, st2)) :
    (ServeHTTP p (ResponseWriter.fresh werr)
        (Route.customStatusChange.request query body) s).1.status = some 200
    ∧ (ServeHTTP p (ResponseWriter.fresh werr)
        (Route.customStatusChange.request query body) s).1.body = ""
    ∧ (∃ u : User,
        (ServeHTTP p (ResponseWriter.fresh werr)
          (Route.customStatusChange.request query body) s).2.trace
          = s.trace ++ [Call.GetUser (queryGet query "Mattermost-User-ID"), Call.UpdateUser u]
        ∧ countUpdateUser (ServeHTTP p (ResponseWriter.fresh werr)
            (Route.customStatusChange.request query body) s).2.trace
            = countUpdateUser s.trace + 1
        ∧ u.Props.bind (fun m => m.get "customStatus")
            = some (String.mk ("\x7b\"emoji\":".data ++ quote cs.Emoji
                ++ ",\"text\":".data ++ quote cs.Text
                ++ ",\"duration\":".data ++ quote cs.Duration
                ++ ",\"expires_at\":".data ++ tx ++ "\x7d".data)))
    ∧ (cs.ExpiresAt = Time.zero →
        p.time.format Time.zero = Except.ok "0001-01-01T00:00:00Z".data →
        tx = "\"0001-01-01T00:00:00Z\"".data) := by
  have hv : ¬ (cs.Emoji = "" ∧ cs.Text = "") := by
    simp only [not_and_or]; exact hvalid
  have hm : Marshal p.time cs = Except.ok (statusText cs tx) := by
    simp [Marshal, htime]
  have hp := ServeHTTP_put_decoded p (ResponseWriter.fresh werr) query body s cs hid hbody
  rw [worker_succeeded p _ cs s user stored _ st1 st2 hv hget hm hupd] at hp
  rw [hp]
  refine ⟨rfl, rfl, ⟨withStatus user (statusText cs tx), rfl, ?_, ?_⟩, ?_⟩
  · simp [countUpdateUser, List.filter_append]
  · simp [withStatus, UserPropsKeyCustomStatus, StringMap.get_set_self, statusText]
  · intro hz hf
    rw [hz, marshalTime_timestamp p.time Time.zero _ hf (by decide)] at htime
    exact (Except.ok.inj htime).symm

/-- Claim C2, amended, at a concrete input: identity `u1` and the body
`{"emoji":"😀","text":"Busy"}` on the in-memory store. -/
theorem C2_witness :
    (ServeHTTP memPlugin (ResponseWriter.fresh none)
        (Route.customStatusChange.request queryU1 "\x7b\"emoji\":\"😀\",\"text\":\"Busy\"\x7d")
        (World.init store1)).1.status = some 200
    ∧ ∃ u : User,
        (ServeHTTP memPlugin (ResponseWriter.fresh none)
          (Route.customStatusChange.request queryU1
            "\x7b\"emoji\":\"😀\",\"text\":\"Busy\"\x7d")
          (World.init store1)).2.trace = [Call.GetUser "u1", Call.UpdateUser u]
        ∧ u.Props.bind (fun m => m.get "customStatus")
            = some "\x7b\"emoji\":\"😀\",\"text\":\"Busy\",\"duration\":\"\",\"expires_at\":\"0001-01-01T00:00:00Z\"\x7d" :=
  have h := C2_put_stores_four_field_encoding memPlugin queryU1
    "\x7b\"emoji\":\"😀\",\"text\":\"Busy\"\x7d" none (World.init store1)
    (plainStatus "😀" "Busy") "\"0001-01-01T00:00:00Z\"".data user1
    (withStatus user1 (statusText (plainStatus "😀" "Busy") "\"0001-01-01T00:00:00Z\"".data))
    store1
    ⟨[withStatus user1
        (statusText (plainStatus "😀" "Busy") "\"0001-01-01T00:00:00Z\"".data)], false⟩
    (by decide) rfl (Or.inl (by decide)) rfl rfl rfl
  ⟨h.1, h.2.2.1.imp fun _ hu => ⟨hu.1, hu.2.2⟩⟩

/-- Claim C3 as stated fails: a status with emoji `🎉` whose `expires_at` lies
in the year 10000 cannot be encoded; `setCustomStatus` returns the encoder's
error and the record, whose `props` was `{"theme":"dark"}`, gets no
`customStatus` key. -/
theorem C3_counterexample :
    (setCustomStatus goTime user1 ⟨"🎉", "", "", year10000⟩).2
        = some "json: error calling MarshalJSON for type time.Time: Time.MarshalJSON: year outside of range [0,9999]"
    ∧ (setCustomStatus goTime user1 ⟨"🎉", "", "", year10000⟩).1.Props
        = some [("theme", "dark")]
    ∧ (setCustomStatus goTime user1 ⟨"🎉", "", "", year10000⟩).1.Props.bind
        (fun m => m.get "customStatus") = none :=
  ⟨rfl, rfl, rfl⟩

/-- Claim C3, amended: for every user record and every status whose encoding
succeeds (with text `text`), `setCustomStatus` reports no error and leaves a
record whose `props` is the original mapping (the empty one if it was nil)
with the key `customStatus` set to `text` and every other key as it was; a
nil `props` becomes the mapping with exactly that one key.  When the encoding
fails, the error is returned and `props` is the original mapping (the empty
one if it was nil) with no key written.  In both cases `notifyProps` is
non-nil afterwards with its original entries (none if it was nil), the rest
of the record is unchanged and every key other than `customStatus` keeps its
value.  The record with `props = {"theme":"dark"}` and the status with emoji
`🎉` end with `theme` kept and `customStatus` added. -/
theorem C3_setCustomStatus_frame (tp : TimePkg) (user : User) (cs : CustomStatus) :
    (∀ text : String, Marshal tp cs = Except.ok text →
        (setCustomStatus tp user cs).2 = none
        ∧ (∃ m : StringMap, (setCustomStatus tp user cs).1.Props = some m
            ∧ m.get "customStatus" = some text
            ∧ (∀ k, k ≠ "customStatus" → m.get k = (user.Props.getD []).get k)
            ∧ (∀ k, k ∈ m.keys ↔ k = "customStatus" ∨ k ∈ (user.Props.getD []).keys))
        ∧ (user.Props = none →
            (setCustomStatus tp user cs).1.Props = some [("customStatus", text)]))
    ∧ (∀ e : GoError, Marshal tp cs = Except.error e →
        (setCustomStatus tp user cs).2 = some e
        ∧ (setCustomStatus tp user cs).1.Props = some (user.Props.getD []))
    ∧ (setCustomStatus tp user cs).1.NotifyProps = some (user.NotifyProps.getD [])
    ∧ (setCustomStatus tp user cs).1.Id = user.Id
    ∧ (∀ k, k ≠ "customStatus" →
        ((setCustomStatus tp user cs).1.Props.getD []).get k = (user.Props.getD []).get k)
    ∧ (setCustomStatus goTime ⟨"u1", some [("theme", "dark")], none⟩
          (plainStatus "🎉" "")).1.Props
        = some [("theme", "dark"), ("customStatus",
            "\x7b\"emoji\":\"🎉\",\"text\":\"\",\"duration\":\"\",\"expires_at\":\"0001-01-01T00:00:00Z\"\x7d")] := by
  obtain ⟨hprops, hnotify, hid⟩ := makeNonNil_fields user
  refine ⟨fun text hm => ?_, fun e hm => ?_, ?_, ?_, fun k hk => ?_, rfl⟩
  · rw [setCustomStatus_ok tp user cs text hm]
    refine ⟨rfl, ⟨(user.Props.getD []).set "customStatus" text, ?_,
      StringMap.get_set_self _ _ _, fun k hk => StringMap.get_set_other _ _ _ k hk,
      fun k => StringMap.mem_keys_set _ _ _ k⟩, ?_⟩
    · simp [withStatus, hprops, UserPropsKeyCustomStatus]
    · intro hnil
      simp [withStatus, hprops, hnil, UserPropsKeyCustomStatus, StringMap.set]
  · rw [setCustomStatus_failed tp user cs e hm]
    exact ⟨rfl, hprops⟩
  · rcases hm : Marshal tp cs with e | text
    · rw [setCustomStatus_failed tp user cs e hm]; exact hnotify
    · rw [setCustomStatus_ok tp user cs text hm]; simp [withStatus, hnotify]
  · rcases hm : Marshal tp cs with e | text
    · rw [setCustomStatus_failed tp user cs e hm]; exact hid
    · rw [setCustomStatus_ok tp user cs text hm]; simp [withStatus, hid]
  · rcases hm : Marshal tp cs with e | text
    · rw [setCustomStatus_failed tp user cs e hm, hprops]; rfl
    · rw [setCustomStatus_ok tp user cs text hm]
      simp only [withStatus, hprops, Option.getD_some, UserPropsKeyCustomStatus]
      exact StringMap.get_set_other _ _ _ k hk

/-- Claim C4: for every request whose identity attribute is absent or empty, on
either route and whatever the body, the pipeline answers 401, the world is
left as it was (no `GetUser`, no `UpdateUser`, no log entry), the response
body holds only the rejection text (no greeting), and the middleware returns
that answer whatever the next handler is, so the next handler is not run. -/
theorem C4_missing_identity_unauthorized {σ : Type} (p : Plugin σ) (rt : Route)
    (query : List (String × String)) (body : String) (werr : Option GoError) (s : World σ)
    (hid : queryGet query "Mattermost-User-ID" = "") :
    (ServeHTTP p (ResponseWriter.fresh werr) (rt.request query body) s).1.status = some 401
    ∧ (ServeHTTP p (ResponseWriter.fresh werr) (rt.request query body) s).1.body
        = (match werr with | none => "Not authorized\n" | some _ => "")
    ∧ (ServeHTTP p (ResponseWriter.fresh werr) (rt.request query body) s).1.body
        ≠ "Hello, world!"
    ∧ (ServeHTTP p (ResponseWriter.fresh werr) (rt.request query body) s).2 = s
    ∧ ∀ (next : Handler σ) (w : ResponseWriter) (method path : String),
        MattermostAuthorizationRequired p next w ⟨method, path, query, body⟩ s
          = (httpError w "Not authorized" 401, s) := by
  rw [ServeHTTP_unauthorized p _ rt query body s hid]
  refine ⟨httpError_fresh_status _ _ _, ?_, ?_, rfl, ?_⟩
  · cases werr <;> rfl
  · cases werr
    · show (httpError (ResponseWriter.fresh none) "Not authorized" 401).body ≠ "Hello, world!"
      decide
    · show ("" : String) ≠ "Hello, world!"
      decide
  · intro next w method path
    simp [MattermostAuthorizationRequired, hid, StatusUnauthorized]

/-- Claim C4 at a concrete input: a GET without the identity attribute and a
PUT with an empty one. -/
theorem C4_witness :
    ((ServeHTTP memPlugin (ResponseWriter.fresh none)
        (Route.hello.request [] "") (World.init store1)).1.status = some 401
      ∧ (ServeHTTP memPlugin (ResponseWriter.fresh none)
        (Route.hello.request [] "") (World.init store1)).2.trace = [])
    ∧ ((ServeHTTP memPlugin (ResponseWriter.fresh none)
        (Route.customStatusChange.request [("Mattermost-User-ID", "")]
          "\x7b\"emoji\":\"a\"\x7d") (World.init store1)).1.status = some 401
      ∧ (ServeHTTP memPlugin (ResponseWriter.fresh none)
        (Route.customStatusChange.request [("Mattermost-User-ID", "")]
          "\x7b\"emoji\":\"a\"\x7d") (World.init store1)).2.trace = []) :=
  have h1 := C4_missing_identity_unauthorized memPlugin Route.hello [] "" none
    (World.init store1) rfl
  have h2 := C4_missing_identity_unauthorized memPlugin Route.customStatusChange
    [("Mattermost-User-ID", "")] "\x7b\"emoji\":\"a\"\x7d" none (World.init store1) rfl
  ⟨⟨h1.1, by rw [h1.2.2.2.1]; rfl⟩, ⟨h2.1, by rw [h2.2.2.2.1]; rfl⟩⟩

/-- Claim C5: for every non-empty identity and every body that decodes to a valid
status, a collaborator failure ends the request with 500: when `GetUser`
fails the only call made is that `GetUser` (no `UpdateUser`); when `GetUser`
succeeds and the `UpdateUser` call, made with the record that holds the
encoded status, fails, `UpdateUser` was called exactly once. -/
theorem C5_collaborator_failure_is_500 {σ : Type} (p : Plugin σ)
    (query : List (String × String)) (body : String) (werr : Option GoError)
    (s : World σ) (cs : CustomStatus)
    (hid : queryGet query "Mattermost-User-ID" ≠ "")
    (hbody : Decode p.time body = Except.ok cs)
    (hvalid : cs.Emoji ≠ "" ∨ cs.Text ≠ "") :
    (∀ (e : AppError) (st1 : σ),
        p.API.GetUser (queryGet query "Mattermost-User-ID") s.store = (Except.error e, st1) →
        (ServeHTTP p (ResponseWriter.fresh werr)
          (Route.customStatusChange.request query body) s).1.status = some 500
        ∧ (ServeHTTP p (ResponseWriter.fresh werr)
          (Route.customStatusChange.request query body) s).2.trace
            = s.trace ++ [Call.GetUser (queryGet query "Mattermost-User-ID")]
        ∧ countUpdateUser (ServeHTTP p (ResponseWriter.fresh werr)
          (Route.customStatusChange.request query body) s).2.trace = countUpdateUser s.trace)
    ∧ (∀ (user : User) (text : String) (e : AppError) (st1 st2 : σ),
        p.API.GetUser (queryGet query "Mattermost-User-ID") s.store = (Except.ok user, st1) →
        Marshal p.time cs = Except.ok text →
        p.API.UpdateUser (withStatus user text) st1 = (Except.error e, st2) →
        (ServeHTTP p (ResponseWriter.fresh werr)
          (Route.customStatusChange.request query body) s).1.status = some 500
        ∧ countUpdateUser (ServeHTTP p (ResponseWriter.fresh werr)
          (Route.customStatusChange.request query body) s).2.trace
            = countUpdateUser s.trace + 1
        ∧ countGetUser (ServeHTTP p (ResponseWriter.fresh werr)
          (Route.customStatusChange.request query body) s).2.trace
            = countGetUser s.trace + 1) := by
  have hv : ¬ (cs.Emoji = "" ∧ cs.Text = "") := by
    simp only [not_and_or]; exact hvalid
  have hp := ServeHTTP_put_decoded p (ResponseWriter.fresh werr) query body s cs hid hbody
  constructor
  · intro e st1 hget
    rw [worker_get_failed p _ cs s e st1 hv hget] at hp
    rw [hp]
    refine ⟨httpError_fresh_status _ _ _, rfl, ?_⟩
    simp [countUpdateUser, List.filter_append]
  · intro user text e st1 st2 hget hm hupd
    rw [worker_update_failed p _ cs s user text e st1 st2 hv hget hm hupd] at hp
    rw [hp]
    refine ⟨httpError_fresh_status _ _ _, ?_, ?_⟩
    · simp [countUpdateUser, List.filter_append]
    · simp [countGetUser, List.filter_append]

/-- Claim C5 at a concrete input: a store without the user (`GetUser` fails)
and a read-only store (`UpdateUser` fails). -/
theorem C5_witness :
    ((ServeHTTP memPlugin (ResponseWriter.fresh none)
        (Route.customStatusChange.request queryU1 "\x7b\"emoji\":\"a\"\x7d")
        (World.init store0)).1.status = some 500
      ∧ countUpdateUser (ServeHTTP memPlugin (ResponseWriter.fresh none)
        (Route.customStatusChange.request queryU1 "\x7b\"emoji\":\"a\"\x7d")
        (World.init store0)).2.trace = 0)
    ∧ ((ServeHTTP memPlugin (ResponseWriter.fresh none)
        (Route.customStatusChange.request queryU1 "\x7b\"emoji\":\"a\"\x7d")
        (World.init store1ReadOnly)).1.status = some 500
      ∧ countUpdateUser (ServeHTTP memPlugin (ResponseWriter.fresh none)
        (Route.customStatusChange.request queryU1 "\x7b\"emoji\":\"a\"\x7d")
        (World.init store1ReadOnly)).2.trace = 1) :=
  have h0 := (C5_collaborator_failure_is_500 memPlugin queryU1 "\x7b\"emoji\":\"a\"\x7d" none
    (World.init store0) (plainStatus "a" "") (by decide) rfl (Or.inl (by decide))).1 _ _ rfl
  have h1 := (C5_collaborator_failure_is_500 memPlugin queryU1 "\x7b\"emoji\":\"a\"\x7d" none
    (World.init store1ReadOnly) (plainStatus "a" "") (by decide) rfl
    (Or.inl (by decide))).2 user1 _ _ _ _ rfl rfl rfl
  ⟨⟨h0.1, h0.2.2⟩, ⟨h1.1, h1.2.1⟩⟩

/-- Claim C7 as stated fails: the body `{"emoji":"a"}x` is not well-formed JSON,
yet the request is answered 200 and `GetUser` and `UpdateUser` are each
called once. -/
theorem C7_counterexample :
    wellFormedJSON "\x7b\"emoji\":\"a\"\x7dx" = false
    ∧ (ServeHTTP memPlugin (ResponseWriter.fresh none)
        (Route.customStatusChange.request queryU1 "\x7b\"emoji\":\"a\"\x7dx")
        (World.init store1)).1.status = some 200
    ∧ countGetUser (ServeHTTP memPlugin (ResponseWriter.fresh none)
        (Route.customStatusChange.request queryU1 "\x7b\"emoji\":\"a\"\x7dx")
        (World.init store1)).2.trace = 1
    ∧ countUpdateUser (ServeHTTP memPlugin (ResponseWriter.fresh none)
        (Route.customStatusChange.request queryU1 "\x7b\"emoji\":\"a\"\x7dx")
        (World.init store1)).2.trace = 1 :=
  ⟨rfl, rfl, rfl, rfl⟩

/-- Claim C7, amended: for every PUT on `/custom-status-change` that carries an
identity, whatever its body (malformed, empty or well-formed), unless the
body decodes to a status with a non-empty emoji or text the response is 400
and the world is left as it was: no `GetUser` and no `UpdateUser` call.  So a
malformed or empty body is answered 400 except when it begins with a complete
JSON value that decodes to such a status. -/
theorem C7_malformed_is_400_unless_leading_status {σ : Type} (p : Plugin σ)
    (query : List (String × String)) (body : String) (werr : Option GoError) (s : World σ)
    (hid : queryGet query "Mattermost-User-ID" ≠ "")
    (hlead : ∀ cs, Decode p.time body = Except.ok cs → cs.Emoji = "" ∧ cs.Text = "") :
    (ServeHTTP p (ResponseWriter.fresh werr)
        (Route.customStatusChange.request query body) s).1.status = some 400
    ∧ (ServeHTTP p (ResponseWriter.fresh werr)
        (Route.customStatusChange.request query body) s).2 = s
    ∧ countGetUser (ServeHTTP p (ResponseWriter.fresh werr)
        (Route.customStatusChange.request query body) s).2.trace = countGetUser s.trace
    ∧ countUpdateUser (ServeHTTP p (ResponseWriter.fresh werr)
        (Route.customStatusChange.request query body) s).2.trace = countUpdateUser s.trace := by
  obtain ⟨h1, h2⟩ := ServeHTTP_put_no_valid_status p werr query body s hid hlead
  exact ⟨h1, h2, by rw [h2], by rw [h2]⟩

/-- Claim C7, amended, at concrete inputs: the empty body, a body cut off
inside the object, and the malformed bodies `{}x` and `[1]x`, which begin with
a complete JSON value. -/
theorem C7_witness :
    ((ServeHTTP memPlugin (ResponseWriter.fresh none)
        (Route.customStatusChange.request queryU1 "") (World.init store1)).1.status = some 400
      ∧ (ServeHTTP memPlugin (ResponseWriter.fresh none)
        (Route.customStatusChange.request queryU1 "") (World.init store1)).2.trace = [])
    ∧ ((ServeHTTP memPlugin (ResponseWriter.fresh none)
        (Route.customStatusChange.request queryU1 "\x7b\"emoji\":\"a\"")
        (World.init store1)).1.status = some 400
      ∧ (ServeHTTP memPlugin (ResponseWriter.fresh none)
        (Route.customStatusChange.request queryU1 "\x7b\"emoji\":\"a\"")
        (World.init store1)).2.trace = [])
    ∧ (wellFormedJSON "\x7b\x7dx" = false
      ∧ (ServeHTTP memPlugin (ResponseWriter.fresh none)
        (Route.customStatusChange.request queryU1 "\x7b\x7dx")
        (World.init store1)).1.status = some 400
      ∧ (ServeHTTP memPlugin (ResponseWriter.fresh none)
        (Route.customStatusChange.request queryU1 "\x7b\x7dx")
        (World.init store1)).2.trace = [])
    ∧ (wellFormedJSON "[1]x" = false
      ∧ (ServeHTTP memPlugin (ResponseWriter.fresh none)
        (Route.customStatusChange.request queryU1 "[1]x")
        (World.init store1)).1.status = some 400
      ∧ (ServeHTTP memPlugin (ResponseWriter.fresh none)
        (Route.customStatusChange.request queryU1 "[1]x")
        (World.init store1)).2.trace = []) :=
  have hnone : ∀ (body : String) (e : JSONError), Decode memPlugin.time body = Except.error e →
      ∀ cs, Decode memPlugin.time body = Except.ok cs → cs.Emoji = "" ∧ cs.Text = "" :=
    fun _ _ he cs hcs => by rw [he] at hcs; cases hcs
  have h1 := C7_malformed_is_400_unless_leading_status memPlugin queryU1 "" none
    (World.init store1) (by decide) (hnone "" JSONError.EOF rfl)
  have h2 := C7_malformed_is_400_unless_leading_status memPlugin queryU1
    "\x7b\"emoji\":\"a\"" none (World.init store1) (by decide)
    (hnone _ JSONError.Syntax rfl)
  have h3 := C7_malformed_is_400_unless_leading_status memPlugin queryU1 "\x7b\x7dx" none
    (World.init store1) (by decide)
    (fun cs hcs => by
      have hd : Decode memPlugin.time "\x7b\x7dx" = Except.ok CustomStatus.zero := rfl
      rw [hd] at hcs
      cases hcs
      exact ⟨rfl, rfl⟩)
  have h4 := C7_malformed_is_400_unless_leading_status memPlugin queryU1 "[1]x" none
    (World.init store1) (by decide) (hnone _ JSONError.UnmarshalType rfl)
  ⟨⟨h1.1, by rw [h1.2.1]; rfl⟩, ⟨h2.1, by rw [h2.2.1]; rfl⟩,
    ⟨rfl, h3.1, by rw [h3.2.1]; rfl⟩, ⟨rfl, h4.1, by rw [h4.2.1]; rfl⟩⟩

/-- Claim C8, the failing input: identity `u1` is unknown to the store, so
`GetUser` fails; the worker returns the 500 error and the only call in the
trace is that `GetUser`: no log entry is written. -/
theorem C8_get_failure_not_logged :
    (SetCustomStatusWorker memPlugin "u1" (some (plainStatus "a" "")) (World.init store0)).1
        = some (NewAppError "SetCustomStatus"
            "api.custom_status.set_custom_statuses.user_not_found" "" 500)
    ∧ (SetCustomStatusWorker memPlugin "u1" (some (plainStatus "a" ""))
        (World.init store0)).2.trace = [Call.GetUser "u1"]
    ∧ logEntries (SetCustomStatusWorker memPlugin "u1" (some (plainStatus "a" ""))
        (World.init store0)).2.trace = [] :=
  ⟨rfl, rfl, rfl⟩

/-- Claim C9 as stated fails: for the status with both fields empty the worker
makes no `GetUser` call at all. -/
theorem C9_counterexample :
    countGetUser (SetCustomStatusWorker memPlugin "u1" (some (plainStatus "" ""))
        (World.init store1)).2.trace = 0
    ∧ countGetUser (SetCustomStatusWorker memPlugin "u1" (some (plainStatus "" ""))
        (World.init store1)).2.trace ≠ 1 :=
  ⟨rfl, by decide⟩

/-- Claim C9, amended: for every identity and every status (nil included) the
worker makes exactly one `GetUser` call when the status is valid and none
when it is not, and at most one `UpdateUser` call. -/
theorem C9_fetch_once_if_valid_persist_at_most_once {σ : Type} (p : Plugin σ)
    (userID : String) (cs : Option CustomStatus) (s : World σ) :
    countGetUser (SetCustomStatusWorker p userID cs s).2.trace
        = countGetUser s.trace + (if validStatus cs then 1 else 0)
    ∧ countUpdateUser s.trace ≤ countUpdateUser (SetCustomStatusWorker p userID cs s).2.trace
    ∧ countUpdateUser (SetCustomStatusWorker p userID cs s).2.trace
        ≤ countUpdateUser s.trace + 1 := by
  cases cs with
  | none => simp [SetCustomStatusWorker, validStatus]
  | some c =>
    by_cases hv : c.Emoji = "" ∧ c.Text = ""
    · rw [worker_invalid p userID c s hv]
      simp [validStatus, hv.1, hv.2]
    · have hvalid : validStatus (some c) = true := by
        simp only [validStatus, Bool.not_eq_true', Bool.and_eq_false_imp, decide_eq_true_eq,
          decide_eq_false_iff_not]
        exact fun h1 h2 => hv ⟨h1, h2⟩
      rw [hvalid]
      rcases hget : p.API.GetUser userID s.store with ⟨rg, st1⟩
      cases rg with
      | error e =>
        rw [worker_get_failed p userID c s e st1 hv hget]
        simp [countGetUser, countUpdateUser, List.filter_append]
      | ok user =>
        rcases hm : Marshal p.time c with je | text
        · rw [worker_set_failed p userID c s user je st1 hv hget hm]
          simp [countGetUser, countUpdateUser, List.filter_append]
        · rcases hupd : p.API.UpdateUser (withStatus user text) st1 with ⟨ru, st2⟩
          cases ru with
          | error e =>
            rw [worker_update_failed p userID c s user text e st1 st2 hv hget hm hupd]
            simp [countGetUser, countUpdateUser, List.filter_append]
          | ok stored =>
            rw [worker_succeeded p userID c s user stored text st1 st2 hv hget hm hupd]
            simp [countGetUser, countUpdateUser, List.filter_append]

/-- Claim C10, the failing input: identity `u1`, a valid status, `GetUser`
succeeds and `UpdateUser` fails with an error `e`.  The worker writes one log
entry, "Failed to update user", whose `userID` field is `u1`, but whose
`error` field is the nil error of the earlier `GetUser` call and not `e`. -/
theorem C10_update_failure_logs_nil_error :
    (∀ u : User, (memPlugin.API.UpdateUser u store1ReadOnly).1
        = Except.error (NewAppError "UpdateUser" "app.user.update.finding.app_error" "" 500))
    ∧ countUpdateUser (SetCustomStatusWorker memPlugin "u1" (some (plainStatus "a" ""))
        (World.init store1ReadOnly)).2.trace = 1
    ∧ logEntries (SetCustomStatusWorker memPlugin "u1" (some (plainStatus "a" ""))
        (World.init store1ReadOnly)).2.trace
        = [("Failed to update user",
            [LogValue.str "userID", LogValue.str "u1", LogValue.str "error",
             LogValue.appErr none])]
    ∧ logEntries (SetCustomStatusWorker memPlugin "u1" (some (plainStatus "a" ""))
        (World.init store1ReadOnly)).2.trace
        ≠ [("Failed to update user",
            [LogValue.str "userID", LogValue.str "u1", LogValue.str "error",
             LogValue.appErr
               (some (NewAppError "UpdateUser" "app.user.update.finding.app_error" "" 500))])] :=
  ⟨fun _ => rfl, rfl, rfl, by decide⟩

end StatusOverlord
